import Mathlib

/-!
Verification of the vtable/class-layout reconstruction engine of
ida_medigate (`cpp_utils.py`) against its natural-language specification.

The Python source is shallowly embedded: pure helpers become Lean
functions, the IDA type database and binary image become explicit state
(lists of structs, association lists from addresses to names) threaded
through the operations, and Python exceptions (attribute errors on `None`)
become `Except.error` results.  Functions of the sibling `utils` module and
of the IDA API, which are not part of the source file, are modelled from
the specification of the Type-Graph Accessor and binary-image oracle
(spec section 6); each such model carries a comment naming the function it
stands for.
-/

namespace CppUtils

/-! ### Python string primitives

`str.split(sep)` and `sep.join(...)` for a nonempty separator, embedded at
the character-list level (left-greedy, non-overlapping occurrences of the
separator), so that the rename logic of `set_polymorhpic_func_name` can be
reasoned about.
-/

/-- Prepend a character to the first piece of a split result. -/
def consHead (c : Char) : List (List Char) → List (List Char)
  | [] => [[c]]
  | h :: t => (c :: h) :: t

/-- Embedding of Python `str.split(sep)` (nonempty `sep`) on character
lists: scan left to right, splitting at each non-overlapping occurrence of
`sep`. -/
def splitCh (sep : List Char) : List Char → List (List Char)
  | [] => [[]]
  | c :: cs =>
    if h : sep.isPrefixOf (c :: cs) ∧ sep ≠ [] then
      [] :: splitCh sep ((c :: cs).drop sep.length)
    else
      consHead c (splitCh sep cs)
termination_by cs => cs.length
decreasing_by
  · have hpos : 0 < sep.length := List.length_pos.mpr h.2
    simp only [List.length_drop, List.length_cons]
    omega
  · simp

/-- Embedding of Python `sep.join(pieces)` on character lists. -/
def joinCh (sep : List Char) : List (List Char) → List Char
  | [] => []
  | [x] => x
  | x :: y :: t => x ++ sep ++ joinCh sep (y :: t)

theorem splitCh_ne_nil (sep : List Char) (cs : List Char) : splitCh sep cs ≠ [] := by
  induction cs using splitCh.induct sep with
  | case1 => simp [splitCh]
  | case2 c cs h ih =>
    rw [splitCh]
    simp [h]
  | case3 c cs h ih =>
    rw [splitCh, dif_neg h]
    cases hs : splitCh sep cs with
    | nil => exact absurd hs ih
    | cons a t => simp [consHead]

/-- The separator used throughout the source: `VTABLE_DELIMITER = "::"`. -/
def colon2 : List Char := [':', ':']

theorem colon2_not_prefixOf {c : Char} (hc : c ≠ ':') (cs : List Char) :
    colon2.isPrefixOf (c :: cs) = false := by
  simp only [colon2, List.isPrefixOf]
  simp [hc.symm]

theorem splitCh_of_colonFree {cs : List Char} (h : ':' ∉ cs) :
    splitCh colon2 cs = [cs] := by
  induction cs with
  | nil => simp [splitCh]
  | cons c cs ih =>
    have hc : c ≠ ':' := by
      intro hEq; exact h (by simp [hEq])
    have hrest : ':' ∉ cs := fun hm => h (List.mem_cons_of_mem _ hm)
    rw [splitCh, dif_neg (by simp [colon2_not_prefixOf hc])]
    rw [ih hrest]
    simp [consHead]

theorem splitCh_append_sep {a : List Char} (h : ':' ∉ a) (r : List Char) :
    splitCh colon2 (a ++ colon2 ++ r) = a :: splitCh colon2 r := by
  induction a with
  | nil =>
    simp only [List.nil_append]
    rw [show colon2 ++ r = ':' :: (':' :: r) by rfl]
    rw [splitCh]
    have hpre : colon2.isPrefixOf (':' :: ':' :: r) = true := by
      simp [colon2, List.isPrefixOf]
    rw [dif_pos ⟨hpre, by simp [colon2]⟩]
    simp [colon2]
  | cons c a ih =>
    have hc : c ≠ ':' := by
      intro hEq; exact h (by simp [hEq])
    have hrest : ':' ∉ a := fun hm => h (List.mem_cons_of_mem _ hm)
    rw [show (c :: a) ++ colon2 ++ r = c :: (a ++ colon2 ++ r) by simp]
    rw [splitCh, dif_neg (by simp [colon2_not_prefixOf hc])]
    rw [ih hrest]
    simp [consHead]

theorem joinCh_consHead (sep : List Char) (c : Char) {l : List (List Char)}
    (h : l ≠ []) : joinCh sep (consHead c l) = c :: joinCh sep l := by
  cases l with
  | nil => exact absurd rfl h
  | cons x t =>
    cases t with
    | nil => simp [consHead, joinCh]
    | cons y t2 => simp [consHead, joinCh]

theorem joinCh_splitCh (sep : List Char) (cs : List Char) :
    joinCh sep (splitCh sep cs) = cs := by
  induction cs using splitCh.induct sep with
  | case1 => simp [splitCh, joinCh]
  | case2 c cs h ih =>
    rw [splitCh, dif_pos h]
    obtain ⟨t, ht⟩ := (List.isPrefixOf_iff_prefix.mp h.1)
    cases hs : splitCh sep ((c :: cs).drop sep.length) with
    | nil => exact absurd hs (splitCh_ne_nil sep _)
    | cons x rest =>
      rw [joinCh]
      rw [← hs, ih]
      have hdrop : (c :: cs).drop sep.length = t := by
        rw [← ht, List.drop_left]
      rw [hdrop, ← ht]
      simp
  | case3 c cs h ih =>
    rw [splitCh, dif_neg h]
    rw [joinCh_consHead sep c (splitCh_ne_nil sep cs), ih]

theorem splitCh_joinCh_append {l : List (List Char)} (hl : ∀ x ∈ l, ':' ∉ x)
    (hne : l ≠ []) {nm : List Char} (hnm : ':' ∉ nm) :
    splitCh colon2 (joinCh colon2 l ++ colon2 ++ nm) = l ++ [nm] := by
  induction l with
  | nil => exact absurd rfl hne
  | cons x t ih =>
    cases t with
    | nil =>
      rw [joinCh]
      rw [splitCh_append_sep (hl x (by simp)) nm]
      rw [splitCh_of_colonFree hnm]
      rfl
    | cons y t2 =>
      rw [joinCh, List.append_assoc, List.append_assoc]
      rw [splitCh_append_sep (hl x (by simp))]
      rw [← List.append_assoc]
      rw [ih (fun z hz => hl z (List.mem_cons_of_mem _ hz)) (by simp)]
      simp

/-- Fuel-indexed variant of `splitCh`, structurally recursive so that it
reduces inside the kernel; it agrees with `splitCh` whenever the fuel
covers the input length (`splitChF_eq_splitCh`). -/
def splitChF (sep : List Char) : Nat → List Char → List (List Char)
  | _, [] => [[]]
  | 0, cs => [cs]
  | fuel + 1, c :: cs =>
    if sep.isPrefixOf (c :: cs) ∧ sep ≠ [] then
      [] :: splitChF sep fuel ((c :: cs).drop sep.length)
    else
      consHead c (splitChF sep fuel cs)

theorem splitChF_eq_splitCh (sep : List Char) :
    ∀ (fuel : Nat) (cs : List Char), cs.length ≤ fuel →
      splitChF sep fuel cs = splitCh sep cs := by
  intro fuel
  induction fuel with
  | zero =>
    intro cs hcs
    have : cs = [] := List.eq_nil_of_length_eq_zero (Nat.le_zero.mp hcs)
    subst this
    simp [splitChF, splitCh]
  | succ n ih =>
    intro cs hcs
    cases cs with
    | nil => simp [splitChF, splitCh]
    | cons c cs2 =>
      rw [splitChF, splitCh]
      by_cases h : sep.isPrefixOf (c :: cs2) ∧ sep ≠ []
      · rw [if_pos h, dif_pos h]
        have hsep : 0 < sep.length := List.length_pos.mpr h.2
        have hlen : ((c :: cs2).drop sep.length).length ≤ n := by
          simp only [List.length_drop, List.length_cons]
          simp only [List.length_cons] at hcs
          omega
        rw [ih _ hlen]
      · rw [if_neg h, dif_neg h]
        have hlen : cs2.length ≤ n := by
          simp only [List.length_cons] at hcs
          omega
        rw [ih _ hlen]

/-- Embedding of Python `s.split(sep)` for strings. -/
def pySplit (s sep : String) : List String :=
  (splitChF sep.data s.data.length s.data).map String.mk

theorem pySplit_eq_splitCh (s sep : String) :
    pySplit s sep = (splitCh sep.data s.data).map String.mk := by
  unfold pySplit
  rw [splitChF_eq_splitCh sep.data s.data.length s.data (Nat.le_refl _)]

/-- Embedding of Python `sep.join(pieces)` for strings. -/
def pyJoin (sep : String) (l : List String) : String :=
  String.mk (joinCh sep.data (l.map String.data))

/-- Embedding of the Python substring test `sub in s` (for nonempty `sub`):
`s.split(sub)` has more than one piece exactly when `sub` occurs in `s`. -/
def pyContains (s sub : String) : Bool :=
  (pySplit s sub).length != 1

/-- Embedding of Python `s.startswith(pre)` (kernel-reducible, unlike
`String.startsWith`). -/
def pyStartsWith (s pre : String) : Bool :=
  pre.data.isPrefixOf s.data

/-- Embedding of Python `s.endswith(suf)` (kernel-reducible, unlike
`String.endsWith`). -/
def pyEndsWith (s suf : String) : Bool :=
  suf.data.isSuffixOf s.data

/-- A string is colon-free when the character `:` does not occur in it. -/
def ColonFree (s : String) : Prop := ':' ∉ s.data

instance (s : String) : Decidable (ColonFree s) := by
  unfold ColonFree; infer_instance

/-- A well-formed qualified name: every `::`-separated segment is free of
the `:` character (so splitting and rejoining are inverse to each other). -/
def CanonicalName (s : String) : Prop :=
  ∀ t ∈ pySplit s "::", ':' ∉ t.data

instance (s : String) : Decidable (CanonicalName s) := by
  unfold CanonicalName; infer_instance

/-- The local (last) segment of a `::`-qualified name, as computed by
`func_name.split(VTABLE_DELIMITER)[-1]` in the source. -/
def localSeg (s : String) : String := (pySplit s "::").getLastD ""

theorem data_cc : ("::" : String).data = colon2 := by rfl

theorem pySplit_ne_nil (s sep : String) : pySplit s sep ≠ [] := by
  rw [pySplit_eq_splitCh]
  simp [splitCh_ne_nil]

theorem pySplit_of_colonFree {s : String} (h : ColonFree s) :
    pySplit s "::" = [s] := by
  rw [pySplit_eq_splitCh, data_cc, splitCh_of_colonFree h]
  simp

theorem localSeg_of_colonFree {s : String} (h : ColonFree s) :
    localSeg s = s := by
  unfold localSeg
  rw [pySplit_of_colonFree h]
  rfl

/-! ### Data model

Shallow embedding of the IDA type database and name table consumed by
`cpp_utils.py`.  Struct ids, member layout and function names are explicit
data; the accessor functions below model the Type-Graph Accessor contract
of spec section 6 (the sibling `utils` module and `ida_struct`/`idc`
primitives, which are not part of the source file).
-/

/-- Embedding of IDA type information (`tinfo_t`) as far as the source
inspects it: pointers, named structs, function pointers, anything else. -/
inductive TInfo where
  | tptr (pointee : TInfo)
  | tstruct (name : String)
  | tfuncptr
  | tother
deriving DecidableEq, Repr

/-- `tinfo_t.is_ptr()`: function pointers are pointers too. -/
def TInfo.isPtr : TInfo → Bool
  | .tptr _ => true
  | .tfuncptr => true
  | _ => false

/-- `tinfo_t.get_pointed_object()` (meaningful only on pointers). -/
def TInfo.pointedObj : TInfo → TInfo
  | .tptr t => t
  | _ => .tother

/-- `tinfo_t.is_struct()`. -/
def TInfo.isStruct : TInfo → Bool
  | .tstruct _ => true
  | _ => false

/-- `tinfo_t.is_funcptr()`. -/
def TInfo.isFuncptr : TInfo → Bool
  | .tfuncptr => true
  | _ => false

/-- `tinfo_t.get_final_type_name()` for named struct types. -/
def TInfo.finalTypeName : TInfo → String
  | .tstruct n => n
  | _ => ""

/-- A struct or union member: name, start offset (for unions: member
index), byte size, optional type.  `soff` models `member_t.get_soff()`. -/
structure Member where
  name : String
  soff : Nat
  msize : Nat
  mtype : Option TInfo
deriving DecidableEq, Repr

/-- A struct or union record of the type database (`struc_t`).  `sid` is
the stable struct id, which survives renames. -/
structure Struc where
  sid : Nat
  name : String
  isUnion : Bool
  members : List Member
deriving DecidableEq, Repr

/-- Function-name table of the disassembly database: address to current
name, addresses unique in well-formed states. -/
abbrev FuncNames := List (Nat × String)

/-- `idaapi.BADADDR` on a 64-bit database. -/
def BADADDR : Nat := 0xFFFFFFFFFFFFFFFF

/-- Modelled from the spec: `utils.get_sptr_by_name` (get struct by
name). -/
def get_sptr_by_name (db : List Struc) (n : String) : Option Struc :=
  db.find? (fun s => s.name = n)

/-- `ida_struct.get_member(sptr, off)`: for unions the offset is the
member index; for structs it returns the member whose byte range contains
`off`. -/
def get_member (s : Struc) (off : Nat) : Option Member :=
  if s.isUnion then s.members.get? off
  else s.members.find? (fun m => m.soff ≤ off ∧ off < m.soff + m.msize)

/-- `ida_struct.get_max_offset(sptr)`: member count for unions, end of the
last byte range for structs. -/
def get_max_offset (s : Struc) : Nat :=
  if s.isUnion then s.members.length
  else s.members.foldr (fun m a => max (m.soff + m.msize) a) 0

/-- `ida_struct.get_struc_size` on an explicit member list of a
(non-union) struct. -/
def struc_size_of (members : List Member) : Nat :=
  members.foldr (fun m a => max (m.soff + m.msize) a) 0

/-- Modelled from the spec: `utils.get_member_tinfo` (get member type). -/
def get_member_tinfo (m : Member) : Option TInfo := m.mtype

/-- `is_ptr` on a possibly absent member type (an absent type behaves like
an empty `tinfo_t`, which is not a pointer). -/
def optIsPtr : Option TInfo → Bool
  | some t => t.isPtr
  | none => false

/-- Modelled from the spec: `utils.get_member_substruct` (resolve a member
whose type is a struct to that struct). -/
def get_member_substruct (db : List Struc) (m : Member) : Option Struc :=
  match m.mtype with
  | some (.tstruct n) => get_sptr_by_name db n
  | _ => none

/-- Modelled from the spec: `utils.deref_struct_from_tinfo` (resolve a
pointer-to-struct type to the pointed-to struct). -/
def deref_struct_from_tinfo (db : List Struc) : TInfo → Option Struc
  | .tptr (.tstruct n) => get_sptr_by_name db n
  | _ => none

/-- Modelled from the spec: `utils.extract_struct_from_tinfo` (resolve a
struct or pointer-to-struct type to its struct). -/
def extract_struct_from_tinfo (db : List Struc) : TInfo → Option Struc
  | .tstruct n => get_sptr_by_name db n
  | .tptr (.tstruct n) => get_sptr_by_name db n
  | _ => none

/-- Source `is_valid_vtable_name`: the member name contains the vtable
field marker `VTABLE_FIELD_NAME = "vfptr"`. -/
def is_valid_vtable_name (member_name : String) : Bool :=
  pyContains member_name "vfptr"

/-- Source `is_struct_vtable`: the struct name contains the marker
`VTABLE_POSTFIX = "_vftable"` (false for an absent struct). -/
def is_struct_vtable : Option Struc → Bool
  | none => false
  | some s => pyContains s.name "_vftable"

/-- Source `is_valid_vtable_type`: pointer whose pointee struct is
vtable-marked. -/
def is_valid_vtable_type (db : List Struc) (member_type : Option TInfo) : Bool :=
  match member_type with
  | some t =>
    if t.isPtr then is_struct_vtable (deref_struct_from_tinfo db t) else false
  | none => false

/-- Source `is_member_vtable`. -/
def is_member_vtable (db : List Struc) (m : Member) : Bool :=
  is_valid_vtable_name m.name && is_valid_vtable_type db (get_member_tinfo m)

/-! ### Function-name table primitives (`idc` / `utils` name oracle) -/

/-- `idc.get_name(ea)`: the current name of an address, `""` when
unnamed. -/
def idc_get_name (fns : FuncNames) (ea : Nat) : String :=
  match fns.find? (fun p => p.1 = ea) with
  | some p => p.2
  | none => ""

/-- Current name of an address as an option (model-level lookup). -/
def funcLookup (fns : FuncNames) (ea : Nat) : Option String :=
  (fns.find? (fun p => p.1 = ea)).map (fun p => p.2)

/-- Modelled from the spec: `utils.get_func_ea` (function-name read:
address of the function carrying a name, `BADADDR` when absent). -/
def get_func_ea (fns : FuncNames) (n : String) : Nat :=
  match fns.find? (fun p => p.2 = n) with
  | some p => p.1
  | none => BADADDR

/-- Modelled from the spec: `utils.set_func_name` (function-name write at
an address). -/
def fns_set_name (fns : FuncNames) (ea : Nat) (n : String) : FuncNames :=
  fns.map (fun p => if p.1 = ea then (p.1, n) else p)

/-! ### Naming policy (pure helpers of the source) -/

/-- Source `get_vtable_instance_name`: `<class>::vftable` with an optional
`::<parent>` tail (`VTABLE_INSTANCE_POSTFIX = "::vftable"`). -/
def get_vtable_instance_name (class_name : String) (parent_name : Option String) : String :=
  let name := class_name ++ "::vftable"
  match parent_name with
  | some p => name ++ "::" ++ p
  | none => name

/-- Uppercase hexadecimal digit characters. -/
def hexDigitChar (n : Nat) : Char :=
  if n < 10 then Char.ofNat (48 + n) else Char.ofNat (55 + n)

/-- Uppercase hexadecimal digits of a number, most significant first
(fuel-structural so that it reduces inside the kernel; `n + 1` steps
always suffice since the argument is divided by 16 each step). -/
def hexCharsF : Nat → Nat → List Char
  | 0, n => [hexDigitChar n]
  | fuel + 1, n =>
    if n < 16 then [hexDigitChar n]
    else hexCharsF fuel (n / 16) ++ [hexDigitChar (n % 16)]

/-- Uppercase hexadecimal digits of a number, most significant first. -/
def hexChars (n : Nat) : List Char := hexCharsF n n

/-- Embedding of the Python format `"%04X" % n`: uppercase hex, zero
padded to at least four digits. -/
def pyHex04 (n : Nat) : String :=
  let ds := hexChars n
  String.mk (List.replicate (4 - ds.length) '0' ++ ds)

/-- Source `get_class_vtable_struct_name`: `<class>_vftable` at offset 0,
`<class>_<HEX4>_vftable` otherwise. -/
def get_class_vtable_struct_name (class_name : String) (vtable_offset_in_class : Nat) : String :=
  if vtable_offset_in_class = 0 then class_name ++ "_vftable"
  else class_name ++ "_" ++ pyHex04 vtable_offset_in_class ++ "_vftable"

/-- Source `get_class_vtable_field_name`: the fixed literal `"vfptr"`. -/
def get_class_vtable_field_name (_class_name : String) : String := "vfptr"

/-- Source `get_class_vtables_union_name`: `<class>::VFTABLES`. -/
def get_class_vtables_union_name (class_name : String) : String :=
  class_name ++ "::" ++ "VFTABLES"

/-- Source `get_class_vtables_field_name`: the child class name (the
configured field suffix `VTABLES_UNION_VTABLE_FIELD_POSTFIX` is `""`). -/
def get_class_vtables_field_name (child_name : String) : String :=
  child_name ++ ""

/-- Source `get_interface_empty_vtable_name`: the sentinel `"INTERFACE"`
union member name. -/
def get_interface_empty_vtable_name : String := "INTERFACE"

/-! ### Vtable struct builder (`get_vtable_line`, `update_vtable_struct`)

The binary-image oracle and the remaining type-database capabilities the
walk consumes are gathered in `WalkEnv`; the state the walk mutates (the
function-name table, the vtable struct member list, cross references,
struct stamps on the image, and instance labels) is `WalkSt`.  Python
exceptions become `Except.error`.
-/

/-- Environment of a vtable-populate walk: binary-image oracle
(`utils.get_ptr`, `utils.is_func_start`, `idc.GetDisasm`,
`utils.get_word_len`), decompiler availability, and the fallible
type-database operations, modelled from the spec as oracles. -/
structure WalkEnv where
  word_len : Nat
  get_ptr : Nat → Nat
  is_func_start : Nat → Bool
  disasm : Nat → String
  hexrays : Bool
  func_ptr_of : Nat → Option TInfo
  get_typeinf : String → Option TInfo
  add_ok : String → Nat → Bool
  dref_ok : Nat → Nat → Bool
  has_user_name : Nat → Bool
  classDb : List Struc

/-- State mutated by a vtable-populate walk: the name table, the members
of the vtable struct being populated, the member-to-function cross
references (keyed by slot offset), the struct stamps written to the image
(`ida_bytes.create_struct`), and the labels set at vtable heads
(`idc.set_name`). -/
structure WalkSt where
  funcNames : FuncNames
  members : List Member
  xrefs : List (Nat × Nat)
  stamps : List (Nat × Nat)
  labels : List (Nat × String)
deriving DecidableEq, Repr

deriving instance DecidableEq for Except

/-- Source `get_vtable_line` (lines 42-53): classify the slot at `ea`.
Stops (returning `(none, 0)`) on a non-function-start value, past the
stop address, or on an ignored function that is not a pure-virtual stub;
otherwise yields the function and the next slot address. -/
def get_vtable_line (env : WalkEnv) (ea : Nat) (stop_ea : Option Nat)
    (ignore_list : List Nat) (pure_virtual_name : Option String) :
    Option Nat × Nat :=
  let func_ea := env.get_ptr ea
  if !(env.is_func_start func_ea) then (none, 0)
  else if (match stop_ea with | some s => decide (s ≤ ea) | none => false) then (none, 0)
  else
    let is_pure_func :=
      match pure_virtual_name with
      | some pv => pyEndsWith (env.disasm ea) pv
      | none => false
    if ignore_list.contains func_ea && !is_pure_func then (none, 0)
    else (some func_ea, ea + env.word_len)

/-- Source `update_func_name_with_class` (lines 281-286): a function whose
current name carries the anonymous prefix `sub_` is renamed to
`<class>::<name>`; any other name is left untouched.  The modelled
`utils.set_func_name` applies the rename and returns the new name. -/
def update_func_name_with_class (fns : FuncNames) (func_ea : Nat)
    (class_name : String) : (String × Bool) × FuncNames :=
  let name := idc_get_name fns func_ea
  if pyStartsWith name "sub_" then
    let new_name := class_name ++ "::" ++ name
    ((new_name, true), fns_set_name fns func_ea new_name)
  else ((name, false), fns)

/-- Printing of a modelled type for the source format string
`"void (*)(%s *)"`. -/
def tinfoOptStr : Option TInfo → String
  | none => "None"
  | some (.tstruct n) => n
  | some (.tptr t) => tinfoOptStr (some t) ++ " *"
  | some .tfuncptr => "void (*)()"
  | some .tother => "?"

/-- Source `make_funcptr_pt`: parse a minimal
`void (*)(<this_type> *)` placeholder type. -/
def make_funcptr_pt (env : WalkEnv) (this_type : Option TInfo) : Option TInfo :=
  env.get_typeinf ("void (*)(" ++ tinfoOptStr this_type ++ " *)")

/-- Modelled from the spec: `utils.get_typeinf_ptr` (build a
pointer-to-named-type). -/
def get_typeinf_ptr (n : String) : Option TInfo :=
  some (.tptr (.tstruct n))

/-- The loop of source `update_vtable_struct` (lines 378-413), with an
explicit fuel bound on the number of iterations (the Python loop is
unbounded, spec section 5).  Each accepted slot: rename the function if
anonymous, derive the member type (from the decompiler when available,
otherwise the placeholder of `make_funcptr_pt`; `fix_userpurge` and
`update_func_this` touch only the decompiler function-type database, which
is outside this state), optionally interleave a dummy member, add the slot
member at the running offset with overwrite, and cross-reference it.  When
`utils.add_to_struct` yields no member, the source logs, advances, and
then dereferences `ptr_member.id` on `None`, which raises AttributeError:
this is the `Except.error` branch.  Member ids are modelled by the slot
offset inside the vtable struct. -/
def uvs_go (env : WalkEnv) (class_name : String) (ignore_list : List Nat)
    (pure_virtual_name : Option String) (stop_ea : Option Nat)
    (add_dummy_member : Bool) (this_type : Option TInfo) :
    Nat → Option Nat → Nat → Nat → Nat → WalkSt → Except String WalkSt
  | _, none, _, _, _, st => .ok st
  | 0, some _, _, _, _, _ => .error "model fuel exhausted"
  | fuel + 1, some func_ea, next_func, dummy_i, offset, st =>
    let r := update_func_name_with_class st.funcNames func_ea class_name
    let new_func_name := r.1.1
    let st1 : WalkSt := { st with funcNames := r.2 }
    let func_ptr : Option TInfo :=
      if env.hexrays then env.func_ptr_of func_ea else make_funcptr_pt env this_type
    let dsz := struc_size_of st1.members
    let st2 : WalkSt :=
      if add_dummy_member then
        (if env.add_ok ("dummy_" ++ toString dummy_i) dsz then
          { st1 with members :=
              st1.members ++ [⟨"dummy_" ++ toString dummy_i, dsz, env.word_len, func_ptr⟩] }
        else st1)
      else st1
    let dummy_i2 := if add_dummy_member then dummy_i + 1 else dummy_i
    let offset1 := if add_dummy_member then offset + env.word_len else offset
    let addOk := env.add_ok new_func_name offset1
    let st3 : WalkSt :=
      if addOk then
        { st2 with members := st2.members.filter (fun m => m.soff ≠ offset1) ++
            [⟨new_func_name, offset1, env.word_len, func_ptr⟩] }
      else st2
    let offset2 := offset1 + env.word_len
    if addOk then
      let st4 : WalkSt :=
        if env.dref_ok offset1 func_ea then
          { st3 with xrefs := st3.xrefs ++ [(offset1, func_ea)] }
        else st3
      let nxt := get_vtable_line env next_func stop_ea ignore_list pure_virtual_name
      uvs_go env class_name ignore_list pure_virtual_name stop_ea add_dummy_member
        this_type fuel nxt.1 nxt.2 dummy_i2 offset2 st4
    else
      .error "AttributeError: NoneType object has no attribute id"

/-- The tail of source `update_vtable_struct` (lines 415-431): stamp the
resolved struct size at the vtable head and, unless the head already
carries a user name (or forced), label it with the canonical instance
name, resolving the parent from `this_type` when necessary (where the
source dereferences a possibly absent struct and raises on `None`). -/
def uvs_finish (env : WalkEnv) (class_name : String) (this_type : Option TInfo)
    (parent_name : Option String) (functions_ea : Nat) (vtable_head : Option Nat)
    (force_rename_vtable_head : Bool) (st : WalkSt) : Except String WalkSt :=
  let vtable_size := struc_size_of st.members
  let head := vtable_head.getD functions_ea
  let st1 : WalkSt := { st with stamps := st.stamps ++ [(head, vtable_size)] }
  if !(env.has_user_name head) || force_rename_vtable_head then
    let pres : Except String (Option String) :=
      if parent_name = none then
        match this_type with
        | some tt =>
          match deref_struct_from_tinfo env.classDb tt with
          | none => .error "AttributeError: NoneType object has no attribute id"
          | some parent =>
            .ok (if parent.name = class_name then none else some parent.name)
        | none => .ok parent_name
      else .ok parent_name
    match pres with
    | .error e => .error e
    | .ok pn =>
      .ok { st1 with labels := st1.labels ++ [(head, get_vtable_instance_name class_name pn)] }
  else .ok st1

/-- Source `update_vtable_struct` (lines 350-431): resolve the `this`
type, walk the function-pointer run starting at `functions_ea`, then
stamp and label the vtable head.  `stop_ea` stands for a
`get_next_func_callback` bound to a stop address (as `make_vtable` does);
`fuel` bounds the model recursion. -/
def update_vtable_struct (env : WalkEnv) (functions_ea : Nat) (class_name : String)
    (this_type0 : Option TInfo) (vtable_head : Option Nat) (ignore_list : List Nat)
    (add_dummy_member : Bool) (pure_virtual_name : Option String)
    (parent_name : Option String) (add_func_this : Bool)
    (force_rename_vtable_head : Bool) (stop_ea : Option Nat) (fuel : Nat)
    (st0 : WalkSt) : Except String WalkSt :=
  let t1 := match this_type0 with
    | none => get_typeinf_ptr class_name
    | some t => some t
  let this_type := if add_func_this then t1 else none
  let fst := get_vtable_line env functions_ea stop_ea ignore_list pure_virtual_name
  match uvs_go env class_name ignore_list pure_virtual_name stop_ea add_dummy_member
      this_type fuel fst.1 fst.2 1 0 st0 with
  | .error e => .error e
  | .ok st =>
    uvs_finish env class_name this_type parent_name functions_ea vtable_head
      force_rename_vtable_head st

/-! ### Vtable locator (`find_vtable_at_offset`, lines 97-136) -/

/-- First loop of `find_vtable_at_offset`: descend through base-class
members while the accumulated offset is short of the target.  Yields the
post-loop context `(current_struct, current_offset, member, chain)`, or
`none` when the source returns `None` (missing substruct), or an error
where the source evaluates `member.get_soff()` on `None` after logging a
missing member. -/
def fvo_descend (db : List Struc) (vtable_offset : Nat) :
    Nat → Struc → Nat → Option Member → List (String × Nat) →
    Except String (Option (Struc × Nat × Option Member × List (String × Nat)))
  | 0, _, _, _, _ => .error "model fuel exhausted"
  | fuel + 1, cur, coff, member, chain =>
    match member with
    | none => .ok (some (cur, coff, none, chain))
    | some m =>
      if coff < vtable_offset then
        match get_member_substruct db m with
        | none => .ok none
        | some cs =>
          let chain2 := chain ++ [(cs.name, vtable_offset - coff)]
          match get_member cs (vtable_offset - coff) with
          | none => .error "AttributeError: NoneType object has no attribute get_soff"
          | some m2 =>
            fvo_descend db vtable_offset fuel cs (coff + m2.soff) (some m2) chain2
      else .ok (some (cur, coff, some m, chain))

/-- Second loop of `find_vtable_at_offset`: once the offset matches,
descend through base members at relative offset 0 until a vtable-marked
member is found. -/
def fvo_climb (db : List Struc) :
    Nat → Struc → Option Member → List (String × Nat) →
    Except String (Option (Member × Struc × List (String × Nat)))
  | 0, _, _, _ => .error "model fuel exhausted"
  | fuel + 1, cur, member, chain =>
    match member with
    | none => .ok none
    | some m =>
      if is_member_vtable db m then .ok (some (m, cur, chain))
      else
        match get_member_substruct db m with
        | none => .ok none
        | some cs =>
          fvo_climb db fuel cs (get_member cs 0) (chain ++ [(cs.name, 0)])

/-- Source `find_vtable_at_offset` (lines 97-136): locate the vtable
pointer member owning `vtable_offset` inside the base chain of
`struct_ptr`, with the descent chain of `(struct name, relative offset)`
pairs.  `fuel` bounds the model recursion depth. -/
def find_vtable_at_offset (db : List Struc) (struct_ptr : Struc) (vtable_offset : Nat)
    (fuel : Nat) : Except String (Option (Member × Struc × List (String × Nat))) :=
  match get_member struct_ptr vtable_offset with
  | none => .ok none
  | some member =>
    match fvo_descend db vtable_offset fuel struct_ptr member.soff (some member) [] with
    | .error e => .error e
    | .ok none => .ok none
    | .ok (some (cur, coff, member2, chain)) =>
      if coff ≠ vtable_offset then .ok none
      else fvo_climb db fuel cur member2 chain

/-! ### The full database and its mutating primitives -/

/-- The shared mutable database: the struct/union records, the
function-name table, and a fresh-id counter for struct creation. -/
structure DB where
  strucs : List Struc
  funcNames : FuncNames
  nextId : Nat
deriving DecidableEq, Repr

/-- `ida_struct.set_struc_name`: fails (returning the state unchanged and
`false`) when the new name collides with a different existing struct. -/
def set_struc_name (db : DB) (sid : Nat) (new_name : String) : DB × Bool :=
  if db.strucs.any (fun s => s.sid != sid && s.name == new_name) then (db, false)
  else
    let ss := db.strucs.map (fun s => if s.sid = sid then { s with name := new_name } else s)
    ({ db with strucs := ss }, true)

/-- Modelled from the spec: `utils.get_or_create_struct_id` (idempotent
get-or-create of a struct by name). -/
def get_or_create_struct_id (db : DB) (n : String) (isUnion : Bool) : Nat × DB :=
  match get_sptr_by_name db.strucs n with
  | some s => (s.sid, db)
  | none =>
    (db.nextId,
     { db with strucs := db.strucs ++ [⟨db.nextId, n, isUnion, []⟩],
               nextId := db.nextId + 1 })

/-- `ida_struct.get_struc` by id. -/
def get_struc (db : DB) (sid : Nat) : Option Struc :=
  db.strucs.find? (fun s => s.sid = sid)

/-- Modelled from the spec: `utils.get_typeinf` (resolve a named type;
absent when no struct of that name exists). -/
def db_get_typeinf (db : DB) (n : String) : Option TInfo :=
  match get_sptr_by_name db.strucs n with
  | some _ => some (.tstruct n)
  | none => none

/-- Modelled from the spec: `utils.add_to_struct` on a union (append a
member; the union-member index is its `soff`).  The result is discarded by
`install_vtables_union`, so the failure mode is not modelled here. -/
def db_add_union_member (db : DB) (sid : Nat) (mname : String) (t : Option TInfo) : DB :=
  { db with strucs := db.strucs.map (fun s =>
      if s.sid = sid then { s with members := s.members ++ [⟨mname, s.members.length, 0, t⟩] }
      else s) }

/-- `ida_struct.add_struc_member`: adds the member and returns the error
code `0` (success) — which the source then mistakes for a member id. -/
def db_add_struc_member (db : DB) (sid : Nat) (mname : String) (off sz : Nat)
    (t : Option TInfo) : DB × Int :=
  ({ db with strucs := db.strucs.map (fun s =>
      if s.sid = sid then { s with members := s.members ++ [⟨mname, off, sz, t⟩] }
      else s) }, 0)

/-- `ida_struct.set_member_tinfo`: retype the member at `msoff` of struct
`sid`. -/
def db_set_member_tinfo (db : DB) (sid : Nat) (msoff : Nat) (t : TInfo) : DB :=
  let retype := fun (m : Member) => if m.soff = msoff then { m with mtype := some t } else m
  let ss := db.strucs.map (fun s =>
    if s.sid = sid then { s with members := s.members.map retype } else s)
  { db with strucs := ss }

/-- `ida_struct.get_struc_size` by id: max member size for unions, end of
the last byte range otherwise. -/
def db_get_struc_size (db : DB) (sid : Nat) : Nat :=
  match get_struc db sid with
  | some s =>
    if s.isUnion then s.members.foldr (fun m a => max m.msize a) 0
    else struc_size_of s.members
  | none => 0

/-! ### Vtable union installer (`install_vtables_union`, lines 161-236) -/

/-- Result of `install_vtables_union`: the source returns the literal `-1`
on failure and the (possibly absent) union struct on success. -/
inductive InstallRet where
  | sentinel
  | made (u : Option Struc)
deriving DecidableEq, Repr

/-- Remainder of `install_vtables_union` after the rename step (source
lines 188-236): create or reuse the union, add the renamed original
vtable type (or the INTERFACE sentinel) as a member, and repoint the
class member at the union.  The `class_vtable_member`-absent path carries
the source FIXMEs faithfully: `add_struc_member` returns an error code,
`get_member_by_id` on that code yields no member, and `set_member_tinfo`
applied to `None` raises. -/
def install_vtables_union_rest (db : DB) (class_name : String)
    (class_vtable_member : Option Member) (offset : Nat)
    (old_vtable_class_name vtables_union_name : String) :
    Except String (InstallRet × DB) :=
  let c := get_or_create_struct_id db vtables_union_name true
  let vtables_union_id := c.1
  let db1 := c.2
  let vtable_member_tinfo := db_get_typeinf db1 (old_vtable_class_name ++ "_orig")
  if vtables_union_id = BADADDR then .ok (.sentinel, db1)
  else
    match get_struc db1 vtables_union_id with
    | none =>
      -- the source only logs here, then crashes inside utils.add_to_struct
      .error "TypeError: add_to_struct on None"
    | some vtables_union =>
      let vtables_union_vtable_field_name :=
        if vtable_member_tinfo.isSome then get_class_vtables_field_name class_name
        else get_interface_empty_vtable_name
      let db2 := db_add_union_member db1 vtables_union.sid
        vtables_union_vtable_field_name vtable_member_tinfo
      let parent_struct := get_sptr_by_name db2.strucs class_name
      let struct_size := db_get_struc_size db2 vtables_union_id
      let mres : Except String (Option Member × DB) :=
        match class_vtable_member with
        | some m => .ok (some m, db2)
        | none =>
          match parent_struct with
          | none => .error "TypeError: add_struc_member on None"
          | some ps =>
            let ad := db_add_struc_member db2 ps.sid
              (get_class_vtable_field_name class_name) offset struct_size
              (some (.tstruct vtables_union_name))
            .ok (none, ad.1)
      match mres with
      | .error e => .error e
      | .ok (member_ptr, db3) =>
        match member_ptr, parent_struct with
        | some m, some ps =>
          .ok (.made (some vtables_union),
               db_set_member_tinfo db3 ps.sid m.soff (.tptr (.tstruct vtables_union_name)))
        | _, _ => .error "TypeError: set_member_tinfo on None"

/-- Head of `install_vtables_union` (source lines 170-175): resolve the
existing vtable struct and its name, either from the given member type or
by the canonical name at `offset` (where the source reads
`old_vtable_sptr.id` on a possibly absent struct and raises). -/
def install_resolve (db : DB) (class_name : String)
    (class_vtable_member : Option Member) (vtable_member_tinfo0 : Option TInfo)
    (offset : Nat) : Except String (Option Struc × String) :=
  if class_vtable_member.isSome ∧ vtable_member_tinfo0.isSome then
    match extract_struct_from_tinfo db.strucs (vtable_member_tinfo0.getD .tother) with
    | none => .error "AttributeError: NoneType object has no attribute id"
    | some s => .ok (some s, s.name)
  else
    let n := get_class_vtable_struct_name class_name offset
    .ok (get_sptr_by_name db.strucs n, n)

/-- Source `install_vtables_union` (lines 161-236): resolve the existing
vtable struct (from the given member type, or by canonical name at
`offset`), rename it to `<name>_orig` — returning the `-1` sentinel with
no further mutation when the rename fails — then build the union and
repoint the class member. -/
def install_vtables_union (db : DB) (class_name : String)
    (class_vtable_member : Option Member) (vtable_member_tinfo0 : Option TInfo)
    (offset : Nat) : Except String (InstallRet × DB) :=
  match install_resolve db class_name class_vtable_member vtable_member_tinfo0 offset with
  | .error e => .error e
  | .ok (old_vtable_sptr, old_vtable_class_name) =>
    let vtables_union_name := old_vtable_class_name
    match old_vtable_sptr with
    | some old =>
      let rn := set_struc_name db old.sid (old_vtable_class_name ++ "_orig")
      if rn.2 = false then .ok (.sentinel, db)
      else install_vtables_union_rest rn.1 class_name class_vtable_member offset
        old_vtable_class_name vtables_union_name
    | none =>
      install_vtables_union_rest db class_name class_vtable_member offset
        old_vtable_class_name vtables_union_name

/-! ### Override propagator (`get_overriden_func_names`,
`set_polymorhpic_func_name`, lines 463-503) -/

/-- `get_pointed_object` on a possibly absent member type. -/
def optPointedObj : Option TInfo → TInfo
  | some t => t.pointedObj
  | none => .tother

/-- `is_funcptr` on a possibly absent member type. -/
def optIsFuncptr : Option TInfo → Bool
  | some t => t.isFuncptr
  | none => false

/-- One union member of the `get_overriden_func_names` loop (source lines
470-487): skip the INTERFACE sentinel and non-pointer members, skip
members whose pointee is not a struct, skip when the pointed-to struct is
too short for `offset`, and skip non-function-pointer slots unless
`get_not_funcs_members`; otherwise yield `(member name, slot name)`. -/
def gofn_step (db : List Struc) (offset : Nat) (get_not_funcs_members : Bool)
    (sptr : Struc) (i : Nat) : Except String (Option (String × String)) :=
  match get_member sptr i with
  | none => .error "AttributeError: NoneType object has no attribute id"
  | some member =>
    let cls := member.name
    let tinfo := get_member_tinfo member
    if cls == get_interface_empty_vtable_name || !(optIsPtr tinfo) then .ok none
    else
      let pointed_obj := optPointedObj tinfo
      if !pointed_obj.isStruct then .ok none
      else
        match get_sptr_by_name db pointed_obj.finalTypeName with
        | none => .error "AttributeError: get_max_offset on None"
        | some vtable_sptr =>
          if get_max_offset vtable_sptr ≤ offset then .ok none
          else
            match get_member vtable_sptr offset with
            | none => .error "AttributeError: NoneType object has no attribute id"
            | some funcptr_member =>
              let funcptr_type := get_member_tinfo funcptr_member
              let func_name := funcptr_member.name
              if !(optIsFuncptr funcptr_type) && !get_not_funcs_members then .ok none
              else .ok (some (cls, func_name))

/-- The member loop of `get_overriden_func_names` over the member indices
`range(get_max_offset(sptr))`. -/
def gofn_go (db : List Struc) (offset : Nat) (gnf : Bool) (sptr : Struc) :
    List Nat → Except String (List (String × String))
  | [] => .ok []
  | i :: rest =>
    match gofn_step db offset gnf sptr i with
    | .error e => .error e
    | .ok r =>
      match gofn_go db offset gnf sptr rest with
      | .error e => .error e
      | .ok tail => .ok (match r with | some p => p :: tail | none => tail)

/-- Source `get_overriden_func_names` (lines 463-488).  The source guard
`if not sptr.is_union` tests the bound method object itself, which is
always truthy, so it never returns early; an absent union struct crashes
on the attribute access. -/
def get_overriden_func_names (db : List Struc) (union_name : String) (offset : Nat)
    (get_not_funcs_members : Bool) : Except String (List (String × String)) :=
  match get_sptr_by_name db union_name with
  | none => .error "AttributeError: NoneType object has no attribute is_union"
  | some sptr =>
    gofn_go db offset get_not_funcs_members sptr (List.range (get_max_offset sptr))

/-- The replacement name built by one `set_polymorhpic_func_name` step
(source lines 498-501): rejoin all but the last `::`-segment of the slot
name, append the delimiter when that prefix is nonempty, then the new
local name. -/
def spNew (func_name name : String) : String :=
  let p := pyJoin "::" ((pySplit func_name "::").dropLast)
  (if p = "" then "" else p ++ "::") ++ name

/-- One rename step of `set_polymorhpic_func_name` (source lines 492-503):
split the slot name on `::`, take the local segment; when it differs from
`name` and is auto-generated (or `force`), look up the function by its
qualified name and rename it with only the local segment replaced. -/
def sp_step (name : String) (force : Bool) (fns : FuncNames) (func_name : String) :
    FuncNames :=
  let func_name_splitted := pySplit func_name "::"
  let local_func_name := func_name_splitted.getLastD ""
  if local_func_name ≠ name ∧ (force = true ∨ pyStartsWith local_func_name "sub_" = true) then
    let ea := get_func_ea fns func_name
    if ea ≠ BADADDR then
      fns_set_name fns ea (spNew func_name name)
    else fns
  else fns

/-- Source `set_polymorhpic_func_name` (lines 491-503). -/
def set_polymorhpic_func_name (db : DB) (union_name : String) (offset : Nat)
    (name : String) (force : Bool) : Except String DB :=
  match get_overriden_func_names db.strucs union_name offset false with
  | .error e => .error e
  | .ok lst =>
    .ok { db with
      funcNames := lst.foldl (fun fns p => sp_step name force fns p.2) db.funcNames }

/-! ### Claim C7: naming determinism -/

/-- C7: `get_class_vtable_struct_name` is pure and deterministic — two
calls with identical inputs return identical strings; at offset 0 the
result is the class name followed by `_vftable`, and at offset 0x10 it is
the class name followed by `_0010_vftable` (uppercase 4-digit hex). -/
theorem c7_vtable_struct_name_deterministic (c : String) :
    (∀ o : Nat, get_class_vtable_struct_name c o = get_class_vtable_struct_name c o)
    ∧ get_class_vtable_struct_name c 0 = c ++ "_vftable"
    ∧ get_class_vtable_struct_name c 16 = c ++ "_0010_vftable" := by
  refine ⟨fun _ => rfl, by simp [get_class_vtable_struct_name], ?_⟩
  unfold get_class_vtable_struct_name
  rw [if_neg (by omega)]
  rw [show pyHex04 16 = "0010" by decide]
  apply String.ext
  simp [String.data_append]

/-! ### Claim C3: the vtable locator raises on a missing mid-chain member -/

/-- A class `A` whose base member at offset 0 spans 16 bytes of struct
`B`, while `B` itself only covers 4 bytes: looking for a vtable at offset
8 descends into `B` and finds no member there. -/
def c3_struct_A : Struc := ⟨1, "A", false, [⟨"B_0", 0, 16, some (.tstruct "B")⟩]⟩

def c3_struct_B : Struc := ⟨2, "B", false, [⟨"x", 0, 4, some .tother⟩]⟩

/-- C3: evidence of the code bug.  The claim says `find_vtable_at_offset`
returns the NOT_FOUND sentinel and never raises when an expected
base-link member along the descent is missing; but when the member fetched
inside the descent loop is absent, the source logs and then evaluates
`member.get_soff()` on `None`, raising AttributeError. -/
theorem c3_missing_base_link_raises :
    find_vtable_at_offset [c3_struct_A, c3_struct_B] c3_struct_A 8 10 =
      .error "AttributeError: NoneType object has no attribute get_soff" := by
  rfl

/-! ### Claim C2: a failed slot add crashes the walk -/

/-- Walk environment in which every `utils.add_to_struct` call fails
(e.g. a name collision on every slot name). -/
def c2_env : WalkEnv :=
  { word_len := 8, get_ptr := fun _ => 5000, is_func_start := fun _ => true,
    disasm := fun _ => "", hexrays := false, func_ptr_of := fun _ => none,
    get_typeinf := fun _ => none, add_ok := fun _ _ => false,
    dref_ok := fun _ _ => true, has_user_name := fun _ => true, classDb := [] }

/-- C2: evidence of the code bug.  The claim (and spec) say a slot whose
member cannot be added is logged and skipped and the walk continues; but
after logging, the source unconditionally evaluates `ptr_member.id` with
`ptr_member = None`, raising AttributeError and aborting the walk. -/
theorem c2_null_member_raises :
    update_vtable_struct c2_env 1000 "C" none none [] false none none true false none 2
      ⟨[], [], [], [], []⟩ =
      .error "AttributeError: NoneType object has no attribute id" := by
  rfl

/-! ### Claim C1: ignored non-pure slots truncate the walk -/

/-- Binary image for the C1 counterexample: three consecutive slots at
1000/1008/1016 pointing at functions 5000/5008/5016 (all function
starts), with 5008 in the ignore list and a disassembly line that does
not end with the pure-virtual marker. -/
def c1_env : WalkEnv :=
  { word_len := 8,
    get_ptr := fun ea => if ea = 1000 then 5000 else if ea = 1008 then 5008
      else if ea = 1016 then 5016 else 0,
    is_func_start := fun f => f == 5000 || f == 5008 || f == 5016,
    disasm := fun _ => "dq offset sub_5008",
    hexrays := false, func_ptr_of := fun _ => none, get_typeinf := fun _ => none,
    add_ok := fun _ _ => true, dref_ok := fun _ _ => true,
    has_user_name := fun _ => true, classDb := [] }

def c1_fns : FuncNames := [(5000, "sub_5000"), (5008, "sub_5008"), (5016, "sub_5016")]

/-- C1: counterexample to the claim as stated.  Slot 1 (function 5008) is
in the ignore list and not a pure-virtual stub; the claim says that slot
alone is skipped and the walk continues to slot 2 (function 5016, a valid
non-ignored function start).  The code instead ends the walk: only slot 0
is written, and no member or cross reference for 5016 exists. -/
theorem c1_ignored_slot_truncates_walk :
    update_vtable_struct c1_env 1000 "C" none none [5008] false (some "pure") none
        true false none 5 ⟨c1_fns, [], [], [], []⟩ =
      .ok ⟨[(5000, "C::sub_5000"), (5008, "sub_5008"), (5016, "sub_5016")],
           [⟨"C::sub_5000", 0, 8, none⟩], [(0, 5000)], [(1000, 8)], []⟩
    ∧ c1_env.is_func_start (c1_env.get_ptr 1016) = true
    ∧ ([5008].contains (c1_env.get_ptr 1016)) = false := by
  refine ⟨by decide, by decide, by decide⟩

/-- C1 (amended): during a vtable-populate walk, a slot whose function is
in the ignore list and is not a pure-virtual stub does not merely lose its
own entry — `get_vtable_line` returns the `(none, 0)` termination signal
and the walk stops there, excluding all subsequent slots; whereas an
ignored slot whose disassembly ends with the pure-virtual marker is still
accepted, added as a member under its computed name, and
cross-referenced. -/
theorem c1_amended_ignored_slots (env : WalkEnv) (cn : String) (ign : List Nat)
    (pv : String) (ea1 ea2 : Nat) (st : WalkSt) (fuel : Nat)
    (h1f : env.is_func_start (env.get_ptr ea1) = true)
    (h1i : ign.contains (env.get_ptr ea1) = true)
    (h1p : pyEndsWith (env.disasm ea1) pv = false)
    (h1u : env.has_user_name ea1 = true)
    (h2f : env.is_func_start (env.get_ptr ea2) = true)
    (h2i : ign.contains (env.get_ptr ea2) = true)
    (h2p : pyEndsWith (env.disasm ea2) pv = true)
    (h2u : env.has_user_name ea2 = true)
    (h2stop : env.is_func_start (env.get_ptr (ea2 + env.word_len)) = false)
    (h2add : env.add_ok (update_func_name_with_class st.funcNames (env.get_ptr ea2) cn).1.1 0 = true)
    (h2dref : env.dref_ok 0 (env.get_ptr ea2) = true) :
    get_vtable_line env ea1 none ign (some pv) = (none, 0)
    ∧ get_vtable_line env ea2 none ign (some pv) =
        (some (env.get_ptr ea2), ea2 + env.word_len)
    ∧ update_vtable_struct env ea1 cn none none ign false (some pv) none true false none
        (fuel + 2) st =
        .ok { st with stamps := st.stamps ++ [(ea1, struc_size_of st.members)] }
    ∧ (∃ st2, update_vtable_struct env ea2 cn none none ign false (some pv) none true
        false none (fuel + 2) st = .ok st2
      ∧ st2.members = st.members.filter (fun m => m.soff ≠ 0) ++
          [⟨(update_func_name_with_class st.funcNames (env.get_ptr ea2) cn).1.1, 0,
            env.word_len,
            if env.hexrays then env.func_ptr_of (env.get_ptr ea2)
            else make_funcptr_pt env (get_typeinf_ptr cn)⟩]
      ∧ st2.xrefs = st.xrefs ++ [(0, env.get_ptr ea2)]) := by
  have h1m : env.get_ptr ea1 ∈ ign := by simpa using h1i
  have h2m : env.get_ptr ea2 ∈ ign := by simpa using h2i
  have hA : get_vtable_line env ea1 none ign (some pv) = (none, 0) := by
    simp [get_vtable_line, h1f, h1p, h1i, h1m]
  have hB : get_vtable_line env ea2 none ign (some pv) =
      (some (env.get_ptr ea2), ea2 + env.word_len) := by
    simp [get_vtable_line, h2f, h2p, h2i, h2m]
  have hC : get_vtable_line env (ea2 + env.word_len) none ign (some pv) = (none, 0) := by
    simp [get_vtable_line, h2stop]
  refine ⟨hA, hB, ?_, ?_⟩
  · simp only [update_vtable_struct, hA]
    simp [uvs_go, uvs_finish, h1u]
  · simp only [update_vtable_struct, hB]
    simp only [uvs_go, h2add, hC, h2dref]
    simp [uvs_finish, h2u, h2add, h2dref]

/-- Witness environment for `c1_amended_ignored_slots`: slot 1000 points
at ignored non-pure function 5008; slot 2000 points at ignored function
6000 whose disassembly ends with the pure-virtual marker; slot 2008 holds
a non-function value. -/
def c1w_env : WalkEnv :=
  { word_len := 8,
    get_ptr := fun ea => if ea = 1000 then 5008 else if ea = 2000 then 6000 else 0,
    is_func_start := fun f => f == 5008 || f == 6000,
    disasm := fun ea => if ea = 2000 then "call pure" else "x",
    hexrays := false, func_ptr_of := fun _ => none, get_typeinf := fun _ => none,
    add_ok := fun _ _ => true, dref_ok := fun _ _ => true,
    has_user_name := fun _ => true, classDb := [] }

def c1w_st : WalkSt := ⟨[(6000, "sub_6000")], [], [], [], []⟩

/-- Concrete witness discharging every hypothesis of
`c1_amended_ignored_slots`. -/
theorem c1_amended_witness :
    get_vtable_line c1w_env 1000 none [5008, 6000] (some "pure") = (none, 0)
    ∧ get_vtable_line c1w_env 2000 none [5008, 6000] (some "pure") =
        (some (c1w_env.get_ptr 2000), 2000 + c1w_env.word_len)
    ∧ update_vtable_struct c1w_env 1000 "C" none none [5008, 6000] false (some "pure")
        none true false none (0 + 2) c1w_st =
        .ok { c1w_st with stamps := c1w_st.stamps ++ [(1000, struc_size_of c1w_st.members)] }
    ∧ (∃ st2, update_vtable_struct c1w_env 2000 "C" none none [5008, 6000] false
        (some "pure") none true false none (0 + 2) c1w_st = .ok st2
      ∧ st2.members = c1w_st.members.filter (fun m => m.soff ≠ 0) ++
          [⟨(update_func_name_with_class c1w_st.funcNames (c1w_env.get_ptr 2000) "C").1.1,
            0, c1w_env.word_len,
            if c1w_env.hexrays then c1w_env.func_ptr_of (c1w_env.get_ptr 2000)
            else make_funcptr_pt c1w_env (get_typeinf_ptr "C")⟩]
      ∧ st2.xrefs = c1w_st.xrefs ++ [(0, c1w_env.get_ptr 2000)]) :=
  c1_amended_ignored_slots c1w_env "C" [5008, 6000] "pure" 1000 2000 c1w_st 0
    (by decide) (by decide) (by decide) (by decide) (by decide) (by decide)
    (by decide) (by decide) (by decide) (by decide) (by decide)

/-! ### Claim C4: rename failure aborts union installation cleanly -/

/-- C4: when an existing vtable struct is present but renaming it to
`<name>_orig` collides with another struct, `install_vtables_union`
returns the failure sentinel and the database is unchanged: no union
struct is created or populated and the class vtable member is
untouched. -/
theorem c4_install_union_rename_collision (db : DB) (cn : String)
    (cvm : Option Member) (vmt : Option TInfo) (offset : Nat) (old : Struc)
    (oldname : String)
    (hres : install_resolve db cn cvm vmt offset = .ok (some old, oldname))
    (hcol : db.strucs.any (fun s => s.sid != old.sid && s.name == (oldname ++ "_orig")) = true) :
    install_vtables_union db cn cvm vmt offset = .ok (.sentinel, db) := by
  unfold install_vtables_union
  rw [hres]
  simp [set_struc_name, hcol]

/-- Witness database for `c4_install_union_rename_collision`: class
`C` has a vtable struct `C_vftable`, and an unrelated struct already
carries the name `C_vftable_orig`. -/
def c4w_db : DB :=
  ⟨[⟨1, "C_vftable", false, [⟨"C::sub_1", 0, 8, some .tfuncptr⟩]⟩,
    ⟨2, "C_vftable_orig", false, []⟩,
    ⟨3, "C", false, [⟨"vfptr", 0, 8, some (.tptr (.tstruct "C_vftable"))⟩]⟩],
   [], 10⟩

/-- Concrete witness discharging the hypotheses of
`c4_install_union_rename_collision`. -/
theorem c4_install_union_rename_collision_witness :
    install_vtables_union c4w_db "C" none none 0 = .ok (.sentinel, c4w_db) :=
  c4_install_union_rename_collision c4w_db "C" none none 0
    ⟨1, "C_vftable", false, [⟨"C::sub_1", 0, 8, some .tfuncptr⟩]⟩ "C_vftable"
    (by decide) (by decide)

/-! ### Claim C9: what the override enumeration filters -/

/-- Counterexample database for C9: the union has one member pointing at
struct `PlainS`, whose name does not contain the vtable marker, yet it is
long enough and carries a function pointer at offset 0. -/
def c9_db : List Struc :=
  [⟨1, "U::VFTABLES", true, [⟨"Foo", 0, 0, some (.tptr (.tstruct "PlainS"))⟩]⟩,
   ⟨2, "PlainS", false, [⟨"x", 0, 8, some .tfuncptr⟩]⟩]

/-- C9: counterexample to the claim as stated.  The claim says members
whose pointee is not a vtable-marked struct are excluded from the result;
but the source only checks `is_struct()`, so the member pointing at the
unmarked struct `PlainS` is included. -/
theorem c9_unmarked_struct_included :
    get_overriden_func_names c9_db "U::VFTABLES" 0 false = .ok [("Foo", "x")]
    ∧ pyContains "PlainS" "_vftable" = false := by
  refine ⟨by decide, by decide⟩

/-- The per-member filter actually applied by `get_overriden_func_names`
(for members whose pointee struct resolves): skip the INTERFACE sentinel
and non-pointers, skip non-struct pointees, skip structs too short for the
slot offset, skip non-function-pointer slots unless requested. -/
def gofn_classify (db : List Struc) (offset : Nat) (gnf : Bool) (m : Member) :
    Option (String × String) :=
  if m.name == get_interface_empty_vtable_name || !(optIsPtr m.mtype) then none
  else if !(optPointedObj m.mtype).isStruct then none
  else
    match get_sptr_by_name db (optPointedObj m.mtype).finalTypeName with
    | none => none
    | some vs =>
      if get_max_offset vs ≤ offset then none
      else
        match get_member vs offset with
        | none => none
        | some fm =>
          if !(optIsFuncptr fm.mtype) && !gnf then none else some (m.name, fm.name)

/-- A member is safe for the enumeration when, if it survives the
sentinel/pointer/struct checks, its pointee struct resolves and (when long
enough) carries a member at the slot offset. -/
def gofnSafeB (db : List Struc) (offset : Nat) (m : Member) : Bool :=
  if m.name == get_interface_empty_vtable_name || !(optIsPtr m.mtype)
      || !(optPointedObj m.mtype).isStruct then true
  else
    match get_sptr_by_name db (optPointedObj m.mtype).finalTypeName with
    | none => false
    | some vs =>
      if get_max_offset vs ≤ offset then true
      else (get_member vs offset).isSome

theorem gofn_step_eq_classify (db : List Struc) (offset : Nat) (gnf : Bool)
    (sptr : Struc) (k : Nat) (m : Member)
    (hm : get_member sptr k = some m)
    (hsafe : gofnSafeB db offset m = true) :
    gofn_step db offset gnf sptr k = .ok (gofn_classify db offset gnf m) := by
  have key : gofnSafeB db offset m = true := hsafe
  unfold gofnSafeB at key
  by_cases h1 : (m.name == get_interface_empty_vtable_name || !(optIsPtr m.mtype)) = true
  · simp [gofn_step, gofn_classify, hm, get_member_tinfo, h1]
  · by_cases h2 : ((optPointedObj m.mtype).isStruct) = true
    · have h1b : (m.name == get_interface_empty_vtable_name || !(optIsPtr m.mtype)
          || !(optPointedObj m.mtype).isStruct) = false := by
        simp only [Bool.or_eq_true, Bool.not_eq_true] at h1 ⊢
        push_neg at h1
        rcases h1 with ⟨ha, hb⟩
        simp [ha, hb, h2]
      rw [if_neg (by simp [h1b])] at key
      cases hvs : get_sptr_by_name db (optPointedObj m.mtype).finalTypeName with
      | none => rw [hvs] at key; simp at key
      | some vs =>
        rw [hvs] at key
        have key2 : (if get_max_offset vs ≤ offset then true
            else (get_member vs offset).isSome) = true := key
        by_cases h3 : get_max_offset vs ≤ offset
        · simp [gofn_step, gofn_classify, hm, get_member_tinfo, h1, h2, hvs, h3]
        · rw [if_neg h3] at key2
          cases hfm : get_member vs offset with
          | none => rw [hfm] at key2; simp at key2
          | some fm =>
            simp only [gofn_step, gofn_classify, hm, get_member_tinfo]
            simp only [h1, if_neg, Bool.not_eq_true] at *
            simp [gofn_step, gofn_classify, hm, get_member_tinfo, h1, h2, hvs, h3, hfm]
            split <;> rfl
    · simp [gofn_step, gofn_classify, hm, get_member_tinfo, h1, h2]

theorem gofn_go_range' (db : List Struc) (offset : Nat) (gnf : Bool) (sptr : Struc)
    (hu : sptr.isUnion = true)
    (hsafe : ∀ m ∈ sptr.members, gofnSafeB db offset m = true) :
    ∀ (ms : List Member) (k : Nat), sptr.members.drop k = ms →
      gofn_go db offset gnf sptr (List.range' k ms.length) =
        .ok (ms.filterMap (gofn_classify db offset gnf)) := by
  intro ms
  induction ms with
  | nil => intro k hk; simp [gofn_go]
  | cons m rest ih =>
    intro k hk
    have hget : sptr.members[k]? = some m := by
      have hd := List.getElem?_drop sptr.members k 0
      rw [hk] at hd
      simpa using hd.symm
    have hm : get_member sptr k = some m := by
      simp [get_member, hu, List.get?_eq_getElem?, hget]
    have hmem : m ∈ sptr.members := by
      have hmd : m ∈ sptr.members.drop k := by rw [hk]; simp
      exact List.mem_of_mem_drop hmd
    have hdrop2 : sptr.members.drop (k + 1) = rest := by
      have hdd : sptr.members.drop (k + 1) = (sptr.members.drop k).drop 1 := by
        rw [List.drop_drop, Nat.add_comm]
      rw [hdd, hk]
      simp
    rw [List.length_cons, List.range'_succ]
    rw [gofn_go]
    rw [gofn_step_eq_classify db offset gnf sptr k m hm (hsafe m hmem)]
    rw [ih (k + 1) hdrop2]
    cases hc : gofn_classify db offset gnf m with
    | none => simp [List.filterMap_cons, hc]
    | some p => simp [List.filterMap_cons, hc]

/-- C9 (amended): for every union and slot offset (in a database where the
surviving pointee structs resolve), the override enumeration visits every
union member and yields exactly the filtered list: the INTERFACE sentinel
and non-pointer members are excluded, members whose pointee is not a
struct are excluded (the source checks only `is_struct()`, not the
vtable-struct name marker), members whose pointed-to struct is too short
to contain the slot offset are excluded, and non-function-pointer slots
are excluded unless explicitly requested. -/
theorem c9_override_enumeration_filters (db : List Struc) (un : String) (offset : Nat)
    (gnf : Bool) (sptr : Struc)
    (hs : get_sptr_by_name db un = some sptr) (hu : sptr.isUnion = true)
    (hsafe : ∀ m ∈ sptr.members, gofnSafeB db offset m = true) :
    get_overriden_func_names db un offset gnf =
      .ok (sptr.members.filterMap (gofn_classify db offset gnf)) := by
  unfold get_overriden_func_names
  rw [hs]
  have hmax : get_max_offset sptr = sptr.members.length := by simp [get_max_offset, hu]
  show gofn_go db offset gnf sptr (List.range (get_max_offset sptr)) =
    .ok (sptr.members.filterMap (gofn_classify db offset gnf))
  rw [hmax, List.range_eq_range']
  exact gofn_go_range' db offset gnf sptr hu hsafe sptr.members 0 (by simp)

/-- Witness union for `c9_override_enumeration_filters`: an INTERFACE
sentinel member and one member pointing at a resolvable vtable struct. -/
def c9w_union : Struc :=
  ⟨1, "A::VFTABLES", true,
    [⟨"INTERFACE", 0, 0, none⟩, ⟨"Av", 1, 0, some (.tptr (.tstruct "A_vftable"))⟩]⟩

def c9w_db : List Struc :=
  [c9w_union, ⟨2, "A_vftable", false, [⟨"A::sub_7", 0, 8, some .tfuncptr⟩]⟩]

/-- Concrete witness discharging the hypotheses of
`c9_override_enumeration_filters`. -/
theorem c9_override_enumeration_filters_witness :
    get_overriden_func_names c9w_db "A::VFTABLES" 0 false =
      .ok (c9w_union.members.filterMap (gofn_classify c9w_db 0 false)) :=
  c9_override_enumeration_filters c9w_db "A::VFTABLES" 0 false c9w_union
    (by decide) (by decide) (by decide)

/-! ### Claim C10: class-qualification preserves the anonymous marker -/

theorem getLastD_append_single {α : Type} (l : List α) (a d : α) :
    (l ++ [a]).getLastD d = a := by
  rw [List.getLastD_eq_getLast?, List.getLast?_concat]
  rfl

/-- Splitting `c ++ "::" ++ nm` on `::` appends `[nm]` to the pieces of
`c`, when `c` is a well-formed qualified name and `nm` is colon-free. -/
theorem pySplit_append_name {c nm : String} (hc : CanonicalName c) (hnm : ColonFree nm) :
    pySplit (c ++ "::" ++ nm) "::" = pySplit c "::" ++ [nm] := by
  have hl : ∀ x ∈ splitCh colon2 c.data, ':' ∉ x := by
    intro x hx
    have hx2 : String.mk x ∈ pySplit c "::" := by
      rw [pySplit_eq_splitCh, data_cc]
      exact List.mem_map_of_mem String.mk hx
    exact hc (String.mk x) hx2
  have key := @splitCh_joinCh_append (splitCh colon2 c.data) hl
    (splitCh_ne_nil colon2 c.data) nm.data hnm
  rw [joinCh_splitCh] at key
  rw [pySplit_eq_splitCh, pySplit_eq_splitCh, data_cc]
  have hdata : (c ++ "::" ++ nm).data = c.data ++ colon2 ++ nm.data := by
    rw [String.data_append, String.data_append, data_cc]
  rw [hdata, key]
  have hmk : String.mk nm.data = nm := rfl
  simp [hmk]

theorem localSeg_append_name {c nm : String} (hc : CanonicalName c) (hnm : ColonFree nm) :
    localSeg (c ++ "::" ++ nm) = nm := by
  unfold localSeg
  rw [pySplit_append_name hc hnm, getLastD_append_single]

/-- C10: counterexample to the claim as stated.  An anonymous name that
itself contains the class delimiter — `sub_a::b` starts with `sub_` — is
renamed to `A::sub_a::b`, whose final `::`-separated segment is `b`, which
no longer carries the `sub_` marker, so `set_polymorhpic_func_name` would
not classify it as safe to rename. -/
theorem c10_delimited_name_loses_marker :
    (update_func_name_with_class [(100, "sub_a::b")] 100 "A").1.1 = "A::sub_a::b"
    ∧ pyStartsWith (localSeg "A::sub_a::b") "sub_" = false := by
  refine ⟨by decide, by decide⟩

/-- C10 (amended): renaming an anonymous function via
`update_func_name_with_class` yields the class name, the `::` delimiter,
then the original name unchanged; provided the class name is a well-formed
qualified name and the original name contains no colon, the final
`::`-separated segment of the new name is the original name, so it still
carries the `sub_` marker and `set_polymorhpic_func_name` still
classifies it as safe to rename without force.  Functions whose names do
not start with `sub_` are never renamed. -/
theorem c10_qualified_rename_preserves_marker (fns : FuncNames) (ea : Nat) (cn : String)
    (hc : CanonicalName cn)
    (hn : ColonFree (idc_get_name fns ea)) :
    (pyStartsWith (idc_get_name fns ea) "sub_" = true →
      (update_func_name_with_class fns ea cn).1.1 = cn ++ "::" ++ idc_get_name fns ea
      ∧ (update_func_name_with_class fns ea cn).1.2 = true
      ∧ localSeg ((update_func_name_with_class fns ea cn).1.1) = idc_get_name fns ea
      ∧ pyStartsWith (localSeg ((update_func_name_with_class fns ea cn).1.1)) "sub_" = true)
    ∧ (pyStartsWith (idc_get_name fns ea) "sub_" = false →
      update_func_name_with_class fns ea cn = ((idc_get_name fns ea, false), fns)) := by
  constructor
  · intro hstart
    have heq : (update_func_name_with_class fns ea cn) =
        ((cn ++ "::" ++ idc_get_name fns ea, true),
         fns_set_name fns ea (cn ++ "::" ++ idc_get_name fns ea)) := by
      unfold update_func_name_with_class
      rw [if_pos hstart]
    rw [heq]
    have hloc : localSeg (cn ++ "::" ++ idc_get_name fns ea) = idc_get_name fns ea :=
      localSeg_append_name hc hn
    exact ⟨rfl, rfl, hloc, by rw [hloc, hstart]⟩
  · intro hstart
    unfold update_func_name_with_class
    rw [if_neg (by simp [hstart])]

/-- Concrete witness discharging the hypotheses of
`c10_qualified_rename_preserves_marker`. -/
theorem c10_qualified_rename_preserves_marker_witness :
    (pyStartsWith (idc_get_name [(100, "sub_40")] 100) "sub_" = true →
      (update_func_name_with_class [(100, "sub_40")] 100 "A").1.1 =
          "A" ++ "::" ++ idc_get_name [(100, "sub_40")] 100
      ∧ (update_func_name_with_class [(100, "sub_40")] 100 "A").1.2 = true
      ∧ localSeg ((update_func_name_with_class [(100, "sub_40")] 100 "A").1.1) =
          idc_get_name [(100, "sub_40")] 100
      ∧ pyStartsWith (localSeg ((update_func_name_with_class [(100, "sub_40")] 100 "A").1.1))
          "sub_" = true)
    ∧ (pyStartsWith (idc_get_name [(100, "sub_40")] 100) "sub_" = false →
      update_func_name_with_class [(100, "sub_40")] 100 "A" =
        ((idc_get_name [(100, "sub_40")] 100, false), [(100, "sub_40")])) :=
  c10_qualified_rename_preserves_marker [(100, "sub_40")] 100 "A" (by decide) (by decide)

/-! ### Claim C5: user-named siblings are never renamed -/

theorem fns_set_name_keys (fns : FuncNames) (ea : Nat) (n : String) :
    (fns_set_name fns ea n).map Prod.fst = fns.map Prod.fst := by
  induction fns with
  | nil => rfl
  | cons p rest ih =>
    show (((if p.1 = ea then (p.1, n) else p) :: fns_set_name rest ea n).map Prod.fst) = _
    by_cases h : p.1 = ea
    · simp only [h, if_pos rfl, List.map_cons, ih]
      rfl
    · simp only [if_neg h, List.map_cons, ih]

theorem funcLookup_set_name_ne (fns : FuncNames) (ea0 ea : Nat) (n : String)
    (h : ea ≠ ea0) :
    funcLookup (fns_set_name fns ea0 n) ea = funcLookup fns ea := by
  induction fns with
  | nil => rfl
  | cons p rest ih =>
    show funcLookup ((if p.1 = ea0 then (p.1, n) else p) :: fns_set_name rest ea0 n) ea
        = funcLookup (p :: rest) ea
    by_cases hq : p.1 = ea
    · have hp0 : ¬ p.1 = ea0 := by rw [hq]; exact h
      rw [if_neg hp0]
      unfold funcLookup
      rw [List.find?_cons_of_pos _ (by simp [hq]), List.find?_cons_of_pos _ (by simp [hq])]
    · have hq1 : ((if p.1 = ea0 then (p.1, n) else p)).1 = p.1 := by
        by_cases hp0 : p.1 = ea0 <;> simp [hp0]
      unfold funcLookup
      rw [List.find?_cons_of_neg _ (by simp [hq1, hq]), List.find?_cons_of_neg _ (by simp [hq])]
      exact ih

theorem funcLookup_of_mem_nodup (fns : FuncNames) (ea : Nat) (s : String)
    (hkeys : (fns.map Prod.fst).Nodup) (hmem : (ea, s) ∈ fns) :
    funcLookup fns ea = some s := by
  induction fns with
  | nil => simp at hmem
  | cons p rest ih =>
    simp only [List.map_cons, List.nodup_cons] at hkeys
    rcases List.mem_cons.mp hmem with hcase | hcase
    · rw [← hcase]
      unfold funcLookup
      rw [List.find?_cons_of_pos _ (by simp)]
      rfl
    · by_cases hp : p.1 = ea
      · exfalso
        apply hkeys.1
        rw [hp]
        exact (List.mem_map_of_mem Prod.fst hcase : ea ∈ rest.map Prod.fst)
      · unfold funcLookup
        rw [List.find?_cons_of_neg _ (by simp [hp])]
        exact ih hkeys.2 hcase

theorem idc_of_funcLookup (fns : FuncNames) (ea : Nat) (s : String)
    (h : funcLookup fns ea = some s) : idc_get_name fns ea = s := by
  unfold funcLookup at h
  unfold idc_get_name
  cases hf : fns.find? (fun p => p.1 = ea) with
  | none => rw [hf] at h; simp at h
  | some p => rw [hf] at h; simp at h; exact h

theorem idc_eq_funcLookup_getD (fns : FuncNames) (ea : Nat) :
    idc_get_name fns ea = (funcLookup fns ea).getD "" := by
  unfold idc_get_name funcLookup
  cases fns.find? (fun p => p.1 = ea) <;> rfl

theorem sp_step_keys (nm : String) (force : Bool) (fns : FuncNames) (fn : String) :
    (sp_step nm force fns fn).map Prod.fst = fns.map Prod.fst := by
  simp only [sp_step]
  split
  · split
    · exact fns_set_name_keys fns _ _
    · rfl
  · rfl

theorem sp_step_lookup_preserved (nm : String) (fn : String) (fns : FuncNames) (ea : Nat)
    (hkeys : (fns.map Prod.fst).Nodup)
    (hloc : pyStartsWith (localSeg (idc_get_name fns ea)) "sub_" = false) :
    funcLookup (sp_step nm false fns fn) ea = funcLookup fns ea := by
  simp only [sp_step]
  split
  case isFalse => rfl
  case isTrue hcond =>
    split
    case isFalse => rfl
    case isTrue hba =>
      apply funcLookup_set_name_ne
      intro hEq
      cases hfind : fns.find? (fun p => p.2 = fn) with
      | none =>
        apply hba
        unfold get_func_ea
        rw [hfind]
      | some p =>
        have hp2 : p.2 = fn := by
          have := List.find?_some hfind
          simpa using this
        have hpmem : p ∈ fns := List.mem_of_find?_eq_some hfind
        have hea0 : get_func_ea fns fn = p.1 := by
          unfold get_func_ea
          rw [hfind]
        have hlook : funcLookup fns p.1 = some p.2 :=
          funcLookup_of_mem_nodup fns p.1 p.2 hkeys (by simpa using hpmem)
        have hidc : idc_get_name fns ea = fn := by
          rw [hEq, hea0]
          rw [idc_of_funcLookup fns p.1 p.2 hlook, hp2]
        rw [hidc] at hloc
        have hsub : pyStartsWith ((pySplit fn "::").getLastD "") "sub_" = true := by
          rcases hcond.2 with hf | hs
          · exact absurd hf (by simp)
          · exact hs
        have : localSeg fn = (pySplit fn "::").getLastD "" := rfl
        rw [this, hsub] at hloc
        exact absurd hloc (by simp)

theorem sp_fold_lookup_preserved (nm : String) (ea : Nat) :
    ∀ (lst : List (String × String)) (fns : FuncNames),
      (fns.map Prod.fst).Nodup →
      pyStartsWith (localSeg (idc_get_name fns ea)) "sub_" = false →
      funcLookup (lst.foldl (fun f p => sp_step nm false f p.2) fns) ea =
        funcLookup fns ea := by
  intro lst
  induction lst with
  | nil => intro fns _ _; rfl
  | cons q rest ih =>
    intro fns hkeys hloc
    have hstep := sp_step_lookup_preserved nm q.2 fns ea hkeys hloc
    have hkeys2 : ((sp_step nm false fns q.2).map Prod.fst).Nodup := by
      rw [sp_step_keys]; exact hkeys
    have hloc2 : pyStartsWith (localSeg (idc_get_name (sp_step nm false fns q.2) ea))
        "sub_" = false := by
      rw [idc_eq_funcLookup_getD, hstep, ← idc_eq_funcLookup_getD]
      exact hloc
    simp only [List.foldl_cons]
    rw [ih (sp_step nm false fns q.2) hkeys2 hloc2, hstep]

/-- C5: with `force = false`, `set_polymorhpic_func_name` never renames a
function whose local name (the final `::`-separated segment of its current
qualified name) does not start with the anonymous prefix `sub_`: such a
function keeps exactly the name it had (addresses are uniquely named in a
well-formed database). -/
theorem c5_rename_override_safety (db : DB) (un : String) (offset : Nat) (nm : String)
    (ea : Nat) (d1 : DB)
    (hkeys : (db.funcNames.map Prod.fst).Nodup)
    (hloc : pyStartsWith (localSeg (idc_get_name db.funcNames ea)) "sub_" = false)
    (hok : set_polymorhpic_func_name db un offset nm false = .ok d1) :
    funcLookup d1.funcNames ea = funcLookup db.funcNames ea := by
  unfold set_polymorhpic_func_name at hok
  cases hg : get_overriden_func_names db.strucs un offset false with
  | error e => rw [hg] at hok; simp at hok
  | ok lst =>
    rw [hg] at hok
    simp only [Except.ok.injEq] at hok
    rw [← hok]
    exact sp_fold_lookup_preserved nm ea lst db.funcNames hkeys hloc

/-- Witness database for `c5_rename_override_safety`: the union slot
carries auto-named `A::sub_5` (function 100) while function 200 carries
the user-chosen name `A::go`. -/
def c5w_db : DB :=
  ⟨[⟨1, "U::VFTABLES", true, [⟨"Av", 0, 0, some (.tptr (.tstruct "A_vftable"))⟩]⟩,
    ⟨2, "A_vftable", false, [⟨"A::sub_5", 0, 8, some .tfuncptr⟩]⟩],
   [(100, "A::sub_5"), (200, "A::go")], 10⟩

/-- Concrete witness discharging the hypotheses of
`c5_rename_override_safety`: propagating the name `foo` renames function
100 but leaves the user-named function 200 untouched. -/
theorem c5_rename_override_safety_witness :
    funcLookup (⟨c5w_db.strucs, [(100, "A::foo"), (200, "A::go")], 10⟩ : DB).funcNames 200 =
      funcLookup c5w_db.funcNames 200 :=
  c5_rename_override_safety c5w_db "U::VFTABLES" 0 "foo" 200
    ⟨c5w_db.strucs, [(100, "A::foo"), (200, "A::go")], 10⟩
    (by decide) (by decide) (by decide)

/-! ### Claim C8: a non-function value ends the walk after five slots -/

/-- The state effect of one accepted walk iteration (no dummy padding,
member addition succeeding): rename-if-anonymous, write the slot member at
the running offset, cross-reference it. -/
def uvs_step_state (env : WalkEnv) (cn : String) (this_type : Option TInfo)
    (st : WalkSt) (func_ea offset : Nat) : WalkSt :=
  let r := update_func_name_with_class st.funcNames func_ea cn
  let func_ptr := if env.hexrays then env.func_ptr_of func_ea
    else make_funcptr_pt env this_type
  let newMembers := st.members.filter (fun m => m.soff ≠ offset) ++
    [⟨r.1.1, offset, env.word_len, func_ptr⟩]
  let st3 : WalkSt := { st with funcNames := r.2, members := newMembers }
  if env.dref_ok offset func_ea then { st3 with xrefs := st3.xrefs ++ [(offset, func_ea)] }
  else st3

theorem uvs_go_step (env : WalkEnv) (cn : String) (ign : List Nat) (pv : Option String)
    (stop : Option Nat) (tt : Option TInfo) (fuel : Nat)
    (func_ea next_func dummy_i offset : Nat) (st : WalkSt)
    (hadd : ∀ nm o, env.add_ok nm o = true) :
    uvs_go env cn ign pv stop false tt (fuel + 1) (some func_ea) next_func dummy_i offset st =
      uvs_go env cn ign pv stop false tt fuel
        (get_vtable_line env next_func stop ign pv).1
        (get_vtable_line env next_func stop ign pv).2
        dummy_i (offset + env.word_len)
        (uvs_step_state env cn tt st func_ea offset) := by
  rw [uvs_go]
  simp only [Bool.false_eq_true, if_false, hadd, if_true, uvs_step_state]

theorem filter_ne_of_lt (L : List Member) (o : Nat) (h : ∀ m ∈ L, m.soff < o) :
    L.filter (fun m => m.soff ≠ o) = L := by
  rw [List.filter_eq_self]
  intro m hm
  simp [Nat.ne_of_lt (h m hm)]

theorem uvs_step_state_members (env : WalkEnv) (cn : String) (tt : Option TInfo)
    (st : WalkSt) (f o : Nat) :
    (uvs_step_state env cn tt st f o).members =
      st.members.filter (fun m => m.soff ≠ o) ++
        [⟨(update_func_name_with_class st.funcNames f cn).1.1, o, env.word_len,
          if env.hexrays then env.func_ptr_of f else make_funcptr_pt env tt⟩] := by
  simp only [uvs_step_state]
  split <;> rfl

theorem uvs_step_state_stamps (env : WalkEnv) (cn : String) (tt : Option TInfo)
    (st : WalkSt) (f o : Nat) :
    (uvs_step_state env cn tt st f o).stamps = st.stamps := by
  simp only [uvs_step_state]
  split <;> rfl

theorem uvs_step_state_labels (env : WalkEnv) (cn : String) (tt : Option TInfo)
    (st : WalkSt) (f o : Nat) :
    (uvs_step_state env cn tt st f o).labels = st.labels := by
  simp only [uvs_step_state]
  split <;> rfl

theorem struc_size_of_eq_foldr_pairs (L : List Member) :
    struc_size_of L =
      (L.map (fun m => (m.soff, m.msize))).foldr (fun p a => max (p.1 + p.2) a) 0 := by
  induction L with
  | nil => rfl
  | cons m rest ih =>
    simp only [struc_size_of, List.foldr_cons, List.map_cons] at *
    rw [ih]

/-- A clean run of `k` accepted slots from `addr` (empty ignore list, no
stop address, no dummy padding, every member addition succeeding) followed
by a non-function value: the walk terminates normally and appends exactly
`k` members of pointer width at consecutive offsets. -/
theorem uvs_go_clean_run (env : WalkEnv) (cn : String) (tt : Option TInfo) (d : Nat)
    (hadd : ∀ nm o, env.add_ok nm o = true) (hwl : 0 < env.word_len) :
    ∀ (k addr offset fuel : Nat) (st : WalkSt),
      (∀ m ∈ st.members, m.soff < offset) →
      (∀ i, i < k → env.is_func_start (env.get_ptr (addr + i * env.word_len)) = true) →
      env.is_func_start (env.get_ptr (addr + k * env.word_len)) = false →
      ∃ st2, uvs_go env cn [] none none false tt (fuel + k)
          (get_vtable_line env addr none [] none).1
          (get_vtable_line env addr none [] none).2 d offset st = .ok st2
        ∧ st2.members.map (fun m => (m.soff, m.msize)) =
            st.members.map (fun m => (m.soff, m.msize)) ++
            (List.range k).map (fun i => (offset + i * env.word_len, env.word_len))
        ∧ st2.stamps = st.stamps ∧ st2.labels = st.labels := by
  intro k
  induction k with
  | zero =>
    intro addr offset fuel st hmem hacc hstop
    have h0 := hstop
    rw [show addr + 0 * env.word_len = addr by ring] at h0
    have hl : get_vtable_line env addr none [] none = (none, 0) := by
      simp [get_vtable_line, h0]
    rw [hl]
    exact ⟨st, by simp [uvs_go], by simp, rfl, rfl⟩
  | succ k ih =>
    intro addr offset fuel st hmem hacc hstop
    have h0 := hacc 0 (by omega)
    rw [show addr + 0 * env.word_len = addr by ring] at h0
    have hl : get_vtable_line env addr none [] none =
        (some (env.get_ptr addr), addr + env.word_len) := by
      simp [get_vtable_line, h0]
    rw [hl]
    rw [show fuel + (k + 1) = (fuel + k) + 1 by ring]
    rw [uvs_go_step env cn [] none none tt (fuel + k) _ _ d offset st hadd]
    have hacc2 : ∀ i, i < k →
        env.is_func_start (env.get_ptr (addr + env.word_len + i * env.word_len)) = true := by
      intro i hi
      have hi2 := hacc (i + 1) (by omega)
      rw [show addr + (i + 1) * env.word_len = addr + env.word_len + i * env.word_len
        by ring] at hi2
      exact hi2
    have hstop2 : env.is_func_start
        (env.get_ptr (addr + env.word_len + k * env.word_len)) = false := by
      have hs2 := hstop
      rw [show addr + (k + 1) * env.word_len = addr + env.word_len + k * env.word_len
        by ring] at hs2
      exact hs2
    have hmem2 : ∀ m ∈ (uvs_step_state env cn tt st (env.get_ptr addr) offset).members,
        m.soff < offset + env.word_len := by
      intro m hm
      rw [uvs_step_state_members] at hm
      rcases List.mem_append.mp hm with hin | hin
      · have := hmem m (List.mem_of_mem_filter hin)
        omega
      · simp only [List.mem_singleton] at hin
        subst hin
        show offset < offset + env.word_len
        omega
    obtain ⟨st2, hrun, hmap, hst, hlb⟩ :=
      ih (addr + env.word_len) (offset + env.word_len) fuel _ hmem2 hacc2 hstop2
    have hr : (List.range (k + 1)).map (fun i => (offset + i * env.word_len, env.word_len)) =
        (offset, env.word_len) ::
          (List.range k).map (fun i => (offset + env.word_len + i * env.word_len,
            env.word_len)) := by
      rw [List.range_succ_eq_map, List.map_cons, List.map_map]
      congr 1
      · simp
      · apply List.map_congr_left
        intro i _
        simp only [Function.comp_apply, Prod.mk.injEq]
        exact ⟨by simp only [Nat.succ_eq_add_one]; ring, by trivial⟩
    refine ⟨st2, hrun, ?_, ?_, ?_⟩
    · rw [hmap, uvs_step_state_members, filter_ne_of_lt st.members offset hmem, hr]
      simp [List.map_append]
    · rw [hst, uvs_step_state_stamps]
    · rw [hlb, uvs_step_state_labels]

/-- C8: a vtable-populate walk over a run of pointer slots whose value at
slot index 5 is not a function start (slots 0-4 all function starts, no
ignore list, no stop address, member additions accepted, head already
user-named) writes exactly slots 0 through 4 as members, the resulting
vtable struct byte size is 5 pointer widths, and no error is raised. -/
theorem c8_nonfunction_at_slot_five (env : WalkEnv) (a : Nat) (cn : String)
    (fns : FuncNames) (n : Nat)
    (hwl : 0 < env.word_len)
    (hfs : ∀ i, i < 5 → env.is_func_start (env.get_ptr (a + i * env.word_len)) = true)
    (hstop : env.is_func_start (env.get_ptr (a + 5 * env.word_len)) = false)
    (hadd : ∀ nm o, env.add_ok nm o = true)
    (huser : env.has_user_name a = true) :
    ∃ st, update_vtable_struct env a cn none none [] false none none true false none
        (n + 5) ⟨fns, [], [], [], []⟩ = .ok st
      ∧ st.members.map (fun m => m.soff) =
          [0, env.word_len, 2 * env.word_len, 3 * env.word_len, 4 * env.word_len]
      ∧ struc_size_of st.members = 5 * env.word_len
      ∧ st.members.length = 5 := by
  obtain ⟨st2, hrun, hmap, hst, hlb⟩ :=
    uvs_go_clean_run env cn (get_typeinf_ptr cn) 1 hadd hwl 5 a 0 n
      ⟨fns, [], [], [], []⟩ (by intro m hm; simp at hm) hfs hstop
  have hm2 : st2.members.map (fun m => (m.soff, m.msize)) =
      (List.range 5).map (fun i => (0 + i * env.word_len, env.word_len)) := by
    simpa using hmap
  refine ⟨{ st2 with stamps := st2.stamps ++ [(a, struc_size_of st2.members)] },
    ?_, ?_, ?_, ?_⟩
  · simp only [update_vtable_struct, if_true]
    rw [hrun]
    simp [uvs_finish, huser]
  · show st2.members.map (fun m => m.soff) = _
    have hfst : st2.members.map (fun m => m.soff) =
        (st2.members.map (fun m => (m.soff, m.msize))).map Prod.fst := by
      rw [List.map_map]
      rfl
    rw [hfst, hm2]
    rw [show List.range 5 = [0, 1, 2, 3, 4] from rfl]
    simp only [List.map_cons, List.map_nil, List.cons.injEq, and_true]
    omega
  · show struc_size_of st2.members = _
    rw [struc_size_of_eq_foldr_pairs, hm2]
    rw [show List.range 5 = [0, 1, 2, 3, 4] from rfl]
    simp only [List.map_cons, List.map_nil, List.foldr_cons, List.foldr_nil]
    omega
  · show st2.members.length = 5
    have hlen := congrArg List.length hm2
    simpa using hlen

/-- Witness environment for `c8_nonfunction_at_slot_five`: eight slots at
1000 + 8i, the first five pointing at function starts 5000-5004, slot 5
holding the non-function value 0. -/
def c8w_env : WalkEnv :=
  { word_len := 8,
    get_ptr := fun ea => if ea = 1000 then 5000 else if ea = 1008 then 5001
      else if ea = 1016 then 5002 else if ea = 1024 then 5003
      else if ea = 1032 then 5004 else 0,
    is_func_start := fun f => 5000 ≤ f && f ≤ 5004,
    disasm := fun _ => "x",
    hexrays := false, func_ptr_of := fun _ => none, get_typeinf := fun _ => none,
    add_ok := fun _ _ => true, dref_ok := fun _ _ => true,
    has_user_name := fun _ => true, classDb := [] }

/-- Concrete witness discharging the hypotheses of
`c8_nonfunction_at_slot_five`. -/
theorem c8_nonfunction_at_slot_five_witness :
    ∃ st, update_vtable_struct c8w_env 1000 "C" none none [] false none none true
        false none (0 + 5) ⟨[], [], [], [], []⟩ = .ok st
      ∧ st.members.map (fun m => m.soff) =
          [0, c8w_env.word_len, 2 * c8w_env.word_len, 3 * c8w_env.word_len,
           4 * c8w_env.word_len]
      ∧ struc_size_of st.members = 5 * c8w_env.word_len
      ∧ st.members.length = 5 :=
  c8_nonfunction_at_slot_five c8w_env 1000 "C" [] 0 (by decide)
    (by intro i hi; interval_cases i <;> decide) (by decide) (fun _ _ => rfl) rfl

/-! ### Claim C6: idempotence of override propagation -/

/-- Counterexample database for C6: two sibling vtables carry the slot
names `A::sub_1` and `A::X::sub_9`; the propagated name `X::sub_9`
contains the class delimiter. -/
def c6_db : DB :=
  ⟨[⟨1, "U::VFTABLES", true,
      [⟨"V1", 0, 0, some (.tptr (.tstruct "V1_vftable"))⟩,
       ⟨"V2", 1, 0, some (.tptr (.tstruct "V2_vftable"))⟩]⟩,
    ⟨2, "V1_vftable", false, [⟨"A::sub_1", 0, 8, some .tfuncptr⟩]⟩,
    ⟨3, "V2_vftable", false, [⟨"A::X::sub_9", 0, 8, some .tfuncptr⟩]⟩],
   [(100, "A::sub_1"), (200, "A::X::sub_9")], 10⟩

def c6_d1 : DB := ⟨c6_db.strucs, [(100, "A::X::X::sub_9"), (200, "A::X::sub_9")], 10⟩

def c6_d2 : DB := ⟨c6_db.strucs, [(100, "A::X::X::sub_9"), (200, "A::X::X::sub_9")], 10⟩

/-- C6: counterexample to the claim as stated.  Propagating the
delimiter-carrying name `X::sub_9` renames function 100 twice during the
first call (its new name then matches the other slot name), and the
second call still finds a function named `A::X::sub_9` — function 200 —
and renames it: the second call is not a no-op and the final sets of
qualified names differ. -/
theorem c6_second_call_renames :
    set_polymorhpic_func_name c6_db "U::VFTABLES" 0 "X::sub_9" false = .ok c6_d1
    ∧ set_polymorhpic_func_name c6_d1 "U::VFTABLES" 0 "X::sub_9" false = .ok c6_d2
    ∧ c6_d2.funcNames ≠ c6_d1.funcNames
    ∧ funcLookup c6_d2.funcNames 200 ≠ funcLookup c6_d1.funcNames 200 := by
  refine ⟨by decide, by decide, by decide, by decide⟩

/-- The local segment of a replacement name is the propagated name, when
the slot name is well-formed and the propagated name is colon-free. -/
theorem localSeg_spNew {fn nm : String} (hfn : CanonicalName fn) (hnm : ColonFree nm) :
    localSeg (spNew fn nm) = nm := by
  simp only [spNew]
  by_cases hp : pyJoin "::" ((pySplit fn "::").dropLast) = ""
  · rw [if_pos hp]
    have hnil : ("" ++ nm : String) = nm := by
      apply String.ext
      rw [String.data_append]
      rfl
    rw [hnil, localSeg_of_colonFree hnm]
  · rw [if_neg hp]
    have hdata : ((pyJoin "::" ((pySplit fn "::").dropLast) ++ "::") ++ nm).data =
        joinCh colon2 (((pySplit fn "::").dropLast).map String.data) ++ colon2 ++ nm.data := by
      rw [String.data_append, String.data_append]
      rfl
    have hl : ∀ x ∈ ((pySplit fn "::").dropLast).map String.data, ':' ∉ x := by
      intro x hx
      obtain ⟨t, ht, hteq⟩ := List.mem_map.mp hx
      rw [← hteq]
      exact hfn t (List.dropLast_subset _ ht)
    have hne : ((pySplit fn "::").dropLast).map String.data ≠ [] := by
      intro hEq
      apply hp
      apply String.ext
      show (joinCh colon2 (((pySplit fn "::").dropLast).map String.data)) = "".data
      rw [hEq]
      rfl
    have key := @splitCh_joinCh_append (((pySplit fn "::").dropLast).map String.data) hl hne nm.data hnm
    unfold localSeg
    rw [pySplit_eq_splitCh, data_cc, hdata, key]
    rw [List.map_append]
    have hid : (((pySplit fn "::").dropLast).map String.data).map String.mk =
        (pySplit fn "::").dropLast := by
      rw [List.map_map]
      have hcomp : (String.mk ∘ String.data) = id := funext (fun s => rfl)
      rw [hcomp, List.map_id]
    rw [hid]
    show ((pySplit fn "::").dropLast ++ [String.mk nm.data]).getLastD "" = nm
    rw [getLastD_append_single]

/-- Decomposition of membership after a rename: either the renamed entry
(at the target address), or an untouched entry at a different address. -/
theorem mem_fns_set_name {fns : FuncNames} {ea : Nat} {n : String} {p : Nat × String}
    (h : p ∈ fns_set_name fns ea n) :
    (∃ r, r ∈ fns ∧ r.1 = ea ∧ p = (r.1, n)) ∨ (p ∈ fns ∧ p.1 ≠ ea) := by
  unfold fns_set_name at h
  obtain ⟨r, hr, hrp⟩ := List.mem_map.mp h
  by_cases hre : r.1 = ea
  · left
    refine ⟨r, hr, hre, ?_⟩
    rw [← hrp, if_pos hre]
  · right
    rw [← hrp, if_neg hre]
    exact ⟨hr, hre⟩

/-- The condition under which a rename step (with `force = false`)
touches a slot name: its local segment differs from the propagated name
and carries the anonymous marker. -/
def Cond (nm fn : String) : Prop :=
  localSeg fn ≠ nm ∧ pyStartsWith (localSeg fn) "sub_" = true

/-- Invariant of the propagation fold: keys are unchanged; every entry is
an original one or carries the propagated local name; and no entry keeps
a slot name that a touch-eligible processed step targeted. -/
def SpInv (fns0 fns : FuncNames) (nm : String) (processed : List String) : Prop :=
  fns.map Prod.fst = fns0.map Prod.fst
  ∧ (∀ p ∈ fns, p ∈ fns0 ∨ localSeg p.2 = nm)
  ∧ (∀ fn ∈ processed, Cond nm fn → ∀ p ∈ fns, p.2 ≠ fn)

theorem sp_step_inv (fns0 : FuncNames) (nm : String) (processed : List String)
    (fn : String) (fns : FuncNames)
    (hnames : (fns0.map Prod.snd).Nodup)
    (hbad : BADADDR ∉ fns0.map Prod.fst)
    (hfn : CanonicalName fn) (hnm : ColonFree nm)
    (hinv : SpInv fns0 fns nm processed) :
    SpInv fns0 (sp_step nm false fns fn) nm (processed ++ [fn]) := by
  obtain ⟨hk, hshape, hproc⟩ := hinv
  simp only [sp_step]
  split
  case isFalse hcond =>
    refine ⟨hk, hshape, ?_⟩
    intro g hg hcg p hp
    rcases List.mem_append.mp hg with hg | hg
    · exact hproc g hg hcg p hp
    · simp only [List.mem_singleton] at hg
      subst hg
      exact absurd ⟨hcg.1, Or.inr hcg.2⟩ hcond
  case isTrue hcond =>
    have hc : Cond nm fn := ⟨hcond.1, hcond.2.resolve_left (by simp)⟩
    split
    case isFalse hea =>
      have hnone : ∀ p ∈ fns, p.2 ≠ fn := by
        intro p hp hEq
        cases hfind : fns.find? (fun q => q.2 = fn) with
        | none =>
          have hnot := List.find?_eq_none.mp hfind p hp
          simp [hEq] at hnot
        | some q =>
          apply hea
          unfold get_func_ea
          rw [hfind]
          intro hqb
          apply hbad
          rw [← hk, ← hqb]
          exact List.mem_map_of_mem Prod.fst (List.mem_of_find?_eq_some hfind)
      refine ⟨hk, hshape, ?_⟩
      intro g hg hcg p hp
      rcases List.mem_append.mp hg with hg | hg
      · exact hproc g hg hcg p hp
      · simp only [List.mem_singleton] at hg
        subst hg
        exact hnone p hp
    case isTrue hea =>
      have hloc : localSeg (spNew fn nm) = nm := localSeg_spNew hfn hnm
      refine ⟨by rw [fns_set_name_keys]; exact hk, ?_, ?_⟩
      · intro p hp
        rcases mem_fns_set_name hp with ⟨r, hr, hre, hpe⟩ | ⟨hp2, _⟩
        · right
          rw [hpe]
          exact hloc
        · exact hshape p hp2
      · intro g hg hcg p hp
        rcases mem_fns_set_name hp with ⟨r, hr, hre, hpe⟩ | ⟨hp2, hpne⟩
        · rw [hpe]
          intro hEq
          apply hcg.1
          rw [← hEq]
          exact hloc
        · rcases List.mem_append.mp hg with hg | hg
          · exact hproc g hg hcg p hp2
          · simp only [List.mem_singleton] at hg
            subst hg
            intro hEq
            cases hfind : fns.find? (fun r => r.2 = g) with
            | none =>
              have hnot := List.find?_eq_none.mp hfind p hp2
              simp [hEq] at hnot
            | some q =>
              have hq2 : q.2 = g := by simpa using List.find?_some hfind
              have hqmem := List.mem_of_find?_eq_some hfind
              have hea0 : get_func_ea fns g = q.1 := by
                unfold get_func_ea
                rw [hfind]
              have hpq : p ≠ q := by
                intro hpq
                apply hpne
                rw [hpq, ← hea0]
              have hp0 : p ∈ fns0 := by
                rcases hshape p hp2 with hin | hlo
                · exact hin
                · exact absurd (hEq ▸ hlo) hcg.1
              have hq0 : q ∈ fns0 := by
                rcases hshape q hqmem with hin | hlo
                · exact hin
                · rw [hq2] at hlo
                  exact absurd hlo hc.1
              have := List.inj_on_of_nodup_map hnames hp0 hq0 (by rw [hEq, hq2])
              exact hpq this

theorem sp_fold_inv (fns0 : FuncNames) (nm : String)
    (hnames : (fns0.map Prod.snd).Nodup)
    (hbad : BADADDR ∉ fns0.map Prod.fst)
    (hnm : ColonFree nm) :
    ∀ (lst : List (String × String)) (fns : FuncNames) (processed : List String),
      (∀ q ∈ lst, CanonicalName q.2) →
      SpInv fns0 fns nm processed →
      SpInv fns0 (lst.foldl (fun f p => sp_step nm false f p.2) fns) nm
        (processed ++ lst.map Prod.snd) := by
  intro lst
  induction lst with
  | nil =>
    intro fns processed _ hinv
    simpa using hinv
  | cons q rest ih =>
    intro fns processed hcanon hinv
    simp only [List.foldl_cons, List.map_cons]
    have h1 := sp_step_inv fns0 nm processed q.2 fns hnames hbad
      (hcanon q (by simp)) hnm hinv
    have h2 := ih (sp_step nm false fns q.2) (processed ++ [q.2])
      (fun r hr => hcanon r (by simp [hr])) h1
    rw [show processed ++ q.2 :: rest.map Prod.snd =
      (processed ++ [q.2]) ++ rest.map Prod.snd by simp]
    exact h2

theorem sp_step_noop (nm fn : String) (fns : FuncNames)
    (h : Cond nm fn → ∀ p ∈ fns, p.2 ≠ fn) :
    sp_step nm false fns fn = fns := by
  simp only [sp_step]
  split
  case isFalse => rfl
  case isTrue hcond =>
    have hc : Cond nm fn := ⟨hcond.1, hcond.2.resolve_left (by simp)⟩
    split
    case isFalse => rfl
    case isTrue hea =>
      exfalso
      cases hfind : fns.find? (fun r => r.2 = fn) with
      | none =>
        apply hea
        unfold get_func_ea
        rw [hfind]
      | some q =>
        have hq2 : q.2 = fn := by simpa using List.find?_some hfind
        exact h hc q (List.mem_of_find?_eq_some hfind) hq2

theorem sp_fold_noop (nm : String) (fns : FuncNames) (lst : List (String × String))
    (h : ∀ q ∈ lst, Cond nm q.2 → ∀ p ∈ fns, p.2 ≠ q.2) :
    lst.foldl (fun f p => sp_step nm false f p.2) fns = fns := by
  induction lst with
  | nil => rfl
  | cons q rest ih =>
    simp only [List.foldl_cons]
    rw [sp_step_noop nm q.2 fns (h q (by simp))]
    exact ih (fun r hr => h r (by simp [hr]))

/-- C6 (amended): propagating a colon-free name over a union slot twice
in succession yields the same final set of qualified function names as
propagating it once — the second call renames nothing — in a well-formed
database (unique addresses, unique function names, well-formed qualified
slot names).  The claim is false for propagated names containing the
delimiter (`c6_second_call_renames`). -/
theorem c6_propagation_idempotent (db : DB) (un : String) (offset : Nat) (nm : String)
    (lst : List (String × String)) (d1 : DB)
    (hnames : (db.funcNames.map Prod.snd).Nodup)
    (hbad : BADADDR ∉ db.funcNames.map Prod.fst)
    (hnm : ColonFree nm)
    (hco : get_overriden_func_names db.strucs un offset false = .ok lst)
    (hcanon : ∀ q ∈ lst, CanonicalName q.2)
    (h1 : set_polymorhpic_func_name db un offset nm false = .ok d1) :
    set_polymorhpic_func_name d1 un offset nm false = .ok d1 := by
  unfold set_polymorhpic_func_name at h1 ⊢
  rw [hco] at h1
  simp only [Except.ok.injEq] at h1
  have hstrucs : d1.strucs = db.strucs := by rw [← h1]
  have hfuncs : d1.funcNames =
      lst.foldl (fun f p => sp_step nm false f p.2) db.funcNames := by
    rw [← h1]
  rw [hstrucs, hco]
  have hinv0 : SpInv db.funcNames db.funcNames nm [] :=
    ⟨rfl, fun p hp => Or.inl hp, by simp⟩
  have hinv := sp_fold_inv db.funcNames nm hnames hbad hnm lst db.funcNames []
    hcanon hinv0
  rw [← hfuncs] at hinv
  obtain ⟨_, _, hproc⟩ := hinv
  have hnoop : lst.foldl (fun f p => sp_step nm false f p.2) d1.funcNames =
      d1.funcNames := by
    apply sp_fold_noop
    intro q hq hcq p hp
    refine hproc q.2 ?_ hcq p hp
    simpa using List.mem_map_of_mem Prod.snd hq
  show Except.ok (DB.mk db.strucs
      (lst.foldl (fun fns p => sp_step nm false fns p.2) d1.funcNames) d1.nextId) = .ok d1
  rw [hnoop, ← hstrucs]

/-- Witness database for `c6_propagation_idempotent`: one sibling vtable
slot named `A::sub_5` (function 100), propagated name `foo`. -/
def c6w_db : DB :=
  ⟨[⟨1, "U::VFTABLES", true, [⟨"V1", 0, 0, some (.tptr (.tstruct "V1_vftable"))⟩]⟩,
    ⟨2, "V1_vftable", false, [⟨"A::sub_5", 0, 8, some .tfuncptr⟩]⟩],
   [(100, "A::sub_5")], 10⟩

def c6w_d1 : DB := ⟨c6w_db.strucs, [(100, "A::foo")], 10⟩

/-- Concrete witness discharging the hypotheses of
`c6_propagation_idempotent`. -/
theorem c6_propagation_idempotent_witness :
    set_polymorhpic_func_name c6w_d1 "U::VFTABLES" 0 "foo" false = .ok c6w_d1 :=
  c6_propagation_idempotent c6w_db "U::VFTABLES" 0 "foo" [("V1", "A::sub_5")] c6w_d1
    (by decide) (by decide) (by decide) (by decide) (by decide) (by decide)
